import Mathlib

/-!
Verification development for the Agentex agent execution core
(`backend/app/agents` and `backend/app/integrations/llm`).

The Python source is shallowly embedded as pure Lean functions:
  * JSON values, a serializer mirroring `json.dumps` (default separators,
    `ensure_ascii=True`) and a fueled recursive-descent parser mirroring
    `json.loads` on the grammar the standard decoder accepts,
  * Python string helpers (`str.strip`, `str.lower`, `str.capitalize`,
    `"sep".join`, slicing) restricted to ASCII text,
  * the AG-UI event vocabulary (`app/agents/events.py`; wall-clock
    timestamps are not modelled),
  * `BaseAgent.run` as a transducer over the abstract yield/cancel-check
    step sequence of a processing generator, with the cooperative
    cancellation flag modelled as a monotone time schedule,
  * `BaseAgent.call_tool`, the OpenAI streaming tool-call buffer, and the
    ReAct / Agentic-RAG / Plan-and-Execute processing loops as fueled
    recursions parameterized by an LLM oracle (the oracle returns the list
    of content chunks of one streamed model turn; sampling parameters such
    as temperature do not influence control flow and are omitted), a tool
    handler table, and a fresh-id supply standing for `uuid4()`.

Random `uuid4()` identifiers are modelled by an injected supply
`Nat -> String`.  Within one run the cancellation flag of a context is
modelled as a constant Bool for the loop bodies (it is set only by code
outside the run) and as an event-count schedule for the `run()` wrapper,
where mid-stream cancellation is observable.
-/

/-- Whitespace test used by Python `str.strip` and the regex class `\s`
(ASCII subset; the loops only ever strip ASCII whitespace). -/
def pyWsChar (c : Char) : Bool :=
  c = ' ' || c = '\t' || c = '\n' || c = '\r' || c = '\x0b' || c = '\x0c'

/-- Python `str.strip()` with no arguments (ASCII whitespace model). -/
def pyStrip (s : String) : String :=
  String.mk (((s.toList.dropWhile pyWsChar).reverse.dropWhile pyWsChar).reverse)

/-- Python `str.lower()` (ASCII model, matching `Char.toLower`). -/
def pyLower (s : String) : String :=
  String.mk (s.toList.map Char.toLower)

/-- Python `str.capitalize()`: first character upper-cased, rest lower-cased. -/
def pyCapitalize (s : String) : String :=
  match s.toList with
  | [] => ""
  | c :: cs => String.mk (c.toUpper :: cs.map Char.toLower)

/-- Python `sep.join(parts)`. -/
def pyJoin (sep : String) : List String → String
  | [] => ""
  | [x] => x
  | x :: y :: rest => x ++ sep ++ pyJoin sep (y :: rest)

/-- Python `lst[-n:]`, the last `n` elements. -/
def pyLastN (n : Nat) (l : List α) : List α :=
  l.drop (l.length - n)

/-- Python `s[:n] + "..." if len(s) > n else s`, used to truncate history lines. -/
def pyTruncate (n : Nat) (s : String) : String :=
  if s.length > n then String.mk (s.toList.take n) ++ "..." else s

/-- Accumulating walk producing chunks of size `n + 1`: `acc` holds the
reversed current chunk, `k` its remaining capacity. -/
def chunksAux (n : Nat) : List α → List α → Nat → List (List α)
  | [], acc, _ => [acc.reverse]
  | x :: xs, acc, 0 => acc.reverse :: chunksAux n xs [x] n
  | x :: xs, acc, k + 1 => chunksAux n xs (x :: acc) k

/-- Successive slices `s[i:i+(n+1)]` for `i in range(0, len(s), n+1)`, on
lists (the loops use chunk size 10, i.e. `n = 9`). -/
def chunksOf (n : Nat) : List α → List (List α)
  | [] => []
  | x :: xs => chunksAux n xs [x] n

/-- String chunks of size `n + 1`, mirroring the character-chunked
streaming loops (`for i in range(0, len(answer), chunk_size)`). -/
def pyChunksStr (n : Nat) (s : String) : List String :=
  (chunksOf n s.toList).map String.mk

/-- Substring relation (Python `needle in hay`), as a proposition on the
underlying character lists. -/
def SubstrP (needle hay : String) : Prop :=
  ∃ a b : List Char, hay.toList = a ++ needle.toList ++ b

/-- Executable substring test matching `SubstrP`. -/
def substrAux (needle : List Char) : List Char → Bool
  | [] => needle.isEmpty
  | c :: rest => needle.isPrefixOf (c :: rest) || substrAux needle rest

/-- Executable substring test (Python `needle in hay`). -/
def substrB (needle hay : String) : Bool :=
  substrAux needle.toList hay.toList

/-- Python dict assignment `d[k] = v` on an insertion-ordered association
list: an existing key keeps its position and gets the new value, a new key
is appended. -/
def dictSet (k : String) (v : α) : List (String × α) → List (String × α)
  | [] => [(k, v)]
  | (k₀, v₀) :: rest =>
      if k₀ = k then (k₀, v) :: rest else (k₀, v₀) :: dictSet k v rest

/-- JSON values as produced by `json.loads` and consumed by `json.dumps`.
Numbers keep their source lexeme (the loops never compute with numeric
values, and `json.dumps` of an `int` reproduces its decimal digits). -/
inductive Json where
  | null
  | bool (b : Bool)
  | num (raw : String)
  | str (s : String)
  | arr (items : List Json)
  | obj (kvs : List (String × Json))

/-- Python `d.get(k)` on the association list of an object. -/
def jsonGet (kvs : List (String × Json)) (k : String) : Option Json :=
  kvs.lookup k

/-- Equality test of a JSON value against a string literal
(Python `value == "lit"`, which is false for any non-`str` value). -/
def jsonEqStr (j : Json) (s : String) : Bool :=
  match j with
  | .str t => t = s
  | _ => false

/-- Lower-case hexadecimal digit, as used by `\uXXXX` escapes. -/
def hexDigitChar (n : Nat) : Char :=
  if n < 10 then Char.ofNat (48 + n) else Char.ofNat (87 + n)

/-- Four-digit lower-case hexadecimal rendering of a code unit. -/
def hex4 (n : Nat) : String :=
  String.mk [hexDigitChar (n / 4096 % 16), hexDigitChar (n / 256 % 16),
             hexDigitChar (n / 16 % 16), hexDigitChar (n % 16)]

/-- Escape of one character inside a `json.dumps` string literal with
`ensure_ascii=True`: the two-character escapes for quote, backslash and
the common control characters, `\u00XX` for other control characters,
the character itself for printable ASCII, and `\uXXXX` (with a surrogate
pair above the BMP) for non-ASCII. -/
def jsonEscapeChar (c : Char) : List Char :=
  if c = '\x22' then ['\\', '\x22']
  else if c = '\\' then ['\\', '\\']
  else if c = '\n' then ['\\', 'n']
  else if c = '\r' then ['\\', 'r']
  else if c = '\t' then ['\\', 't']
  else if c = '\x08' then ['\\', 'b']
  else if c = '\x0c' then ['\\', 'f']
  else if c.val < 0x20 then '\\' :: 'u' :: (hex4 c.toNat).toList
  else if c.val < 0x7f then [c]
  else if c.toNat < 0x10000 then '\\' :: 'u' :: (hex4 c.toNat).toList
  else
    let v := c.toNat - 0x10000
    ('\\' :: 'u' :: (hex4 (0xd800 + v / 0x400)).toList)
      ++ ('\\' :: 'u' :: (hex4 (0xdc00 + v % 0x400)).toList)

/-- String literal rendering of `json.dumps`. -/
def jsonDumpStr (s : String) : String :=
  "\x22" ++ String.mk (s.toList.flatMap jsonEscapeChar) ++ "\x22"

mutual

/-- Serialization mirroring `json.dumps(value)` with the default
separators `", "` and `": "`. -/
def jsonDumps : Json → String
  | .null => "null"
  | .bool true => "true"
  | .bool false => "false"
  | .num raw => raw
  | .str s => jsonDumpStr s
  | .arr items => "[" ++ jsonDumpsItems items ++ "]"
  | .obj kvs => "\x7b" ++ jsonDumpsPairs kvs ++ "\x7d"

/-- Comma-separated serialization of array items. -/
def jsonDumpsItems : List Json → String
  | [] => ""
  | [x] => jsonDumps x
  | x :: y :: rest => jsonDumps x ++ ", " ++ jsonDumpsItems (y :: rest)

/-- Comma-separated serialization of object members. -/
def jsonDumpsPairs : List (String × Json) → String
  | [] => ""
  | [(k, v)] => jsonDumpStr k ++ ": " ++ jsonDumps v
  | (k, v) :: p :: rest =>
      jsonDumpStr k ++ ": " ++ jsonDumps v ++ ", " ++ jsonDumpsPairs (p :: rest)

end

/-- Whitespace skipped between JSON tokens (`json.decoder` accepts
space, tab, newline and carriage return). -/
def jsonWsChar (c : Char) : Bool :=
  c = ' ' || c = '\t' || c = '\n' || c = '\r'

/-- Hexadecimal digit value of a character, if any. -/
def hexVal (c : Char) : Option Nat :=
  if '0' ≤ c ∧ c ≤ '9' then some (c.toNat - 48)
  else if 'a' ≤ c ∧ c ≤ 'f' then some (c.toNat - 87)
  else if 'A' ≤ c ∧ c ≤ 'F' then some (c.toNat - 70)
  else none

/-- Body of a JSON string literal after the opening quote: returns the
decoded content and the rest of the input.  Unpaired `\uXXXX` surrogates
are outside the modelled subset (they decode to unspecified characters).
The fuel is at least the input length, so it never runs out on the
strings the loops parse. -/
def parseJStr (fuel : Nat) (acc : List Char) (cs : List Char) :
    Option (String × List Char) :=
  match fuel with
  | 0 => none
  | fuel + 1 =>
    match cs with
    | [] => none
    | '\x22' :: rest => some (String.mk acc.reverse, rest)
    | '\\' :: e :: rest =>
      match e with
      | '\x22' => parseJStr fuel ('\x22' :: acc) rest
      | '\\' => parseJStr fuel ('\\' :: acc) rest
      | '/' => parseJStr fuel ('/' :: acc) rest
      | 'b' => parseJStr fuel ('\x08' :: acc) rest
      | 'f' => parseJStr fuel ('\x0c' :: acc) rest
      | 'n' => parseJStr fuel ('\n' :: acc) rest
      | 'r' => parseJStr fuel ('\r' :: acc) rest
      | 't' => parseJStr fuel ('\t' :: acc) rest
      | 'u' =>
        match rest with
        | h1 :: h2 :: h3 :: h4 :: rest' =>
          match hexVal h1, hexVal h2, hexVal h3, hexVal h4 with
          | some a, some b, some c, some d =>
              parseJStr fuel (Char.ofNat (a * 4096 + b * 256 + c * 16 + d) :: acc) rest'
          | _, _, _, _ => none
        | _ => none
      | _ => none
    | c :: rest =>
      if c.val < 0x20 then none else parseJStr fuel (c :: acc) rest

/-- Lexes a JSON number (including the leading-zero restriction); also
accepts the `Infinity` tail after a minus sign, as `json.loads` does by
default.  Returns the raw lexeme and the rest of the input. -/
def parseJNum (cs : List Char) : Option (String × List Char) :=
  let (sign, cs₁) :=
    match cs with
    | '-' :: rest => (['-'], rest)
    | _ => (([] : List Char), cs)
  match cs₁ with
  | 'I' :: 'n' :: 'f' :: 'i' :: 'n' :: 'i' :: 't' :: 'y' :: rest =>
      if sign.isEmpty then none else some ("-Infinity", rest)
  | _ =>
    let (intDigits, cs₂) := cs₁.span Char.isDigit
    match intDigits with
    | [] => none
    | '0' :: _ :: _ => none
    | _ =>
      let (fracPart, cs₃) :=
        match cs₂ with
        | '.' :: rest =>
          let (ds, rest') := rest.span Char.isDigit
          if ds.isEmpty then (([] : List Char), cs₂) else ('.' :: ds, rest')
        | _ => (([] : List Char), cs₂)
      let hadFrac := ¬ fracPart.isEmpty
      let cs₄ := if hadFrac then cs₃ else cs₂
      let (expPart, cs₅) :=
        match cs₄ with
        | e :: rest =>
          if e = 'e' ∨ e = 'E' then
            let (sgn, rest₁) :=
              match rest with
              | '+' :: r => (['+'], r)
              | '-' :: r => (['-'], r)
              | _ => (([] : List Char), rest)
            let (ds, rest₂) := rest₁.span Char.isDigit
            if ds.isEmpty then (([] : List Char), cs₄)
            else (e :: (sgn ++ ds), rest₂)
          else (([] : List Char), cs₄)
        | [] => (([] : List Char), cs₄)
      some (String.mk (sign ++ intDigits ++ fracPart ++ expPart), cs₅)

mutual

/-- Fueled recursive-descent parser for one JSON value, mirroring the
grammar accepted by `json.loads` (with its default acceptance of `NaN`,
`Infinity` and `-Infinity`).  Returns the value and the unconsumed rest. -/
def parseJValue (fuel : Nat) (cs : List Char) : Option (Json × List Char) :=
  match fuel with
  | 0 => none
  | fuel + 1 =>
    match cs.dropWhile jsonWsChar with
    | [] => none
    | c :: rest =>
      if c = '\x22' then
        (parseJStr (rest.length + 1) [] rest).map (fun (s, r) => (Json.str s, r))
      else if c = '\x7b' then
        match rest.dropWhile jsonWsChar with
        | '\x7d' :: r => some (Json.obj [], r)
        | _ => parseJMembers fuel rest []
      else if c = '[' then
        match rest.dropWhile jsonWsChar with
        | ']' :: r => some (Json.arr [], r)
        | _ => parseJItems fuel rest []
      else
        match c :: rest with
        | 't' :: 'r' :: 'u' :: 'e' :: r => some (Json.bool true, r)
        | 'f' :: 'a' :: 'l' :: 's' :: 'e' :: r => some (Json.bool false, r)
        | 'n' :: 'u' :: 'l' :: 'l' :: r => some (Json.null, r)
        | 'N' :: 'a' :: 'N' :: r => some (Json.num "NaN", r)
        | 'I' :: 'n' :: 'f' :: 'i' :: 'n' :: 'i' :: 't' :: 'y' :: r =>
            some (Json.num "Infinity", r)
        | l => (parseJNum l).map (fun (raw, r) => (Json.num raw, r))

/-- Members of a JSON object after the opening brace (at least one member;
the empty object is handled by the caller).  Duplicate keys follow the
CPython dict semantics: last value wins, first position kept. -/
def parseJMembers (fuel : Nat) (cs : List Char) (acc : List (String × Json)) :
    Option (Json × List Char) :=
  match fuel with
  | 0 => none
  | fuel + 1 =>
    match cs.dropWhile jsonWsChar with
    | '\x22' :: rest =>
      match parseJStr (rest.length + 1) [] rest with
      | none => none
      | some (key, afterKey) =>
        match afterKey.dropWhile jsonWsChar with
        | ':' :: afterColon =>
          match parseJValue fuel afterColon with
          | none => none
          | some (v, afterVal) =>
            let acc' := dictSet key v acc
            match afterVal.dropWhile jsonWsChar with
            | ',' :: afterComma => parseJMembers fuel afterComma acc'
            | '\x7d' :: r => some (Json.obj acc', r)
            | _ => none
        | _ => none
    | _ => none

/-- Items of a JSON array after the opening bracket (at least one item;
the empty array is handled by the caller). -/
def parseJItems (fuel : Nat) (cs : List Char) (acc : List Json) :
    Option (Json × List Char) :=
  match fuel with
  | 0 => none
  | fuel + 1 =>
    match parseJValue fuel cs with
    | none => none
    | some (v, afterVal) =>
      match afterVal.dropWhile jsonWsChar with
      | ',' :: afterComma => parseJItems fuel afterComma (acc ++ [v])
      | ']' :: r => some (Json.arr (acc ++ [v]), r)
      | _ => none

end

/-- Model of `json.loads(s)`: parse one value, allow trailing whitespace,
reject trailing data; `none` models a raised `json.JSONDecodeError`. -/
def jsonLoads (s : String) : Option Json :=
  let cs := s.toList
  match parseJValue (cs.length + 1) cs with
  | some (j, rest) => if (rest.dropWhile jsonWsChar).isEmpty then some j else none
  | none => none

/-! ## Event vocabulary (`app/agents/events.py`)

Each dataclass event becomes one constructor; the creation timestamp is
wall-clock time and is not modelled. -/

/-- AG-UI events yielded by the agent loops. -/
inductive AgentEvent where
  | runStarted (threadId runId : String)
  | runFinished (threadId runId : String) (result : Json)
  | runError (message code : String)
  | textMessageStart (messageId role : String)
  | textMessageContent (messageId delta : String)
  | textMessageEnd (messageId : String)
  | toolCallStart (toolCallId toolCallName : String) (parentMessageId : Option String)
  | toolCallArgs (toolCallId delta : String)
  | toolCallEnd (toolCallId : String)
  | toolCallResult (messageId toolCallId content : String)
  | stepStarted (stepName : String)
  | stepContent (stepName delta : String)
  | stepFinished (stepName : String)
  | stateSnapshot (snapshot : Json)
  | stateDelta (delta : List Json)

/-- Test for a `STEP_STARTED` event with the given step name. -/
def AgentEvent.isStepStartedNamed (name : String) : AgentEvent → Bool
  | .stepStarted n => n = name
  | _ => false

/-- Test for a `RUN_ERROR` event. -/
def AgentEvent.isRunError : AgentEvent → Bool
  | .runError _ _ => true
  | _ => false

/-- Test for a `RUN_FINISHED` event. -/
def AgentEvent.isRunFinished : AgentEvent → Bool
  | .runFinished _ _ _ => true
  | _ => false

/-- Test for a terminal lifecycle event (`RUN_FINISHED` or `RUN_ERROR`). -/
def AgentEvent.isTerminal (e : AgentEvent) : Bool :=
  e.isRunError || e.isRunFinished

/-! ## Message and configuration model (`app/integrations/llm/base.py`,
`app/agents/base.py`) -/

/-- Role of a conversation message. -/
inductive MessageRole where
  | system
  | user
  | assistant
  | tool
deriving DecidableEq

/-- The `value` of the role enum. -/
def MessageRole.value : MessageRole → String
  | .system => "system"
  | .user => "user"
  | .assistant => "assistant"
  | .tool => "tool"

/-- Conversation message (`LLMMessage`); the optional provider fields are
kept for fidelity but the loops only ever construct role/content pairs. -/
structure LLMMessage where
  role : MessageRole
  content : String
  name : Option String := none
  toolCallId : Option String := none

/-- Agent configuration.  Of the source fields only `max_iterations`
influences control flow of the embedded loops; the LLM sampling fields
(`temperature`, `max_tokens`, ...) are passed through to the provider
client, which the embedding abstracts as an oracle, so they are omitted. -/
structure AgentConfig where
  maxIterations : Nat := 10

/-- Default `AgentConfig()`. -/
def agentConfigDefault : AgentConfig := {}

/-- The result of one streamed model turn, abstracted as the list of
content deltas of its chunks (the loops concatenate exactly these). -/
def LLMOracle := List LLMMessage → List String

/-- Fresh-id supply standing for successive `uuid4()` draws of one run. -/
def IdSupply := Nat → String

/-! ## Tool dispatch (`BaseAgent.call_tool`) -/

/-- Value returned by a tool handler, as far as `call_tool` inspects it: a
dict (serialized with `json.dumps`) or any other value via its `str()`
rendering. -/
inductive HandlerResult where
  | dict (kvs : List (String × Json))
  | other (rendered : String)

/-- A registered tool handler: receives the keyword-argument dict and
either returns a value or raises (modelled as `Except.error (str e)`). -/
def ToolHandler := List (String × Json) → Except String HandlerResult

/-- Result of a tool execution (`ToolResult`). -/
structure ToolResult where
  toolCallId : String
  toolName : String
  content : String
  success : Bool := true
  error : Option String := none

/-- Model of `BaseAgent.call_tool`.  A missing handler and a raising
handler both produce a failed `ToolResult`; applying `handler(**arguments)`
to a non-dict arguments value raises `TypeError` inside the guarded block,
which is likewise contained.  The function is total: no path propagates an
exception. -/
def callTool (handlers : String → Option ToolHandler) (toolName : String)
    (arguments : Json) (toolCallId : String) : ToolResult :=
  match handlers toolName with
  | none =>
      { toolCallId := toolCallId, toolName := toolName, content := ""
        success := false
        error := some ("Tool \x27" ++ toolName ++ "\x27 not found") }
  | some handler =>
    let applied : Except String HandlerResult :=
      match arguments with
      | .obj kvs => handler kvs
      | _ => .error "argument after ** must be a mapping"
    match applied with
    | .error e =>
        { toolCallId := toolCallId, toolName := toolName, content := ""
          success := false, error := some e }
    | .ok (.dict kvs) =>
        { toolCallId := toolCallId, toolName := toolName
          content := jsonDumps (.obj kvs), success := true }
    | .ok (.other rendered) =>
        { toolCallId := toolCallId, toolName := toolName
          content := rendered, success := true }

/-! ## Run lifecycle (`BaseAgent.run`)

The processing generator `_process` is abstracted as the sequence of its
externally visible steps: yielding an event, or checking the cancellation
flag and returning if it is set (every `if context.is_cancelled(): return`
in the variant loops).  The generator ends by returning normally or by
raising.  The cancellation flag is cooperative and monotone; it is
modelled as a schedule `cancelAt`: the flag is observed set at any check
that happens after `n` events of the run stream have been yielded. -/

/-- One externally visible step of a processing generator. -/
inductive ProcStep where
  | emit (e : AgentEvent)
  | checkCancel

/-- How the processing generator ends if it runs to completion. -/
inductive ProcEnding where
  | normal
  | raises (msg : String)

/-- The cancellation flag at a point in time `t` (= number of events of
the run stream yielded so far): set iff the schedule has fired. -/
def cancelledAt (cancelAt : Option Nat) (t : Nat) : Bool :=
  match cancelAt with
  | none => false
  | some n => n ≤ t

/-- The events `run()` yields after `RUN_STARTED`, together with the
exception it re-raises, if any.  Mirrors the `async for` body: an event
received from `_process` is preceded by a cancellation check that yields
`RUN_ERROR{RUN_CANCELLED}` and stops; normal exhaustion of `_process`
yields `RUN_FINISHED`; an exception from `_process` yields
`RUN_ERROR{AGENT_ERROR}` and re-raises. -/
def runLoop (threadId runId : String) (cancelAt : Option Nat) :
    List ProcStep → ProcEnding → Nat → List AgentEvent × Option String
  | [], .normal, _ =>
      ([.runFinished threadId runId (.obj [("status", .str "completed")])], none)
  | [], .raises msg, _ => ([.runError msg "AGENT_ERROR"], some msg)
  | .emit e :: rest, ending, t =>
      if cancelledAt cancelAt t then
        ([.runError "Run cancelled by user" "RUN_CANCELLED"], none)
      else
        let (es, exc) := runLoop threadId runId cancelAt rest ending (t + 1)
        (e :: es, exc)
  | .checkCancel :: rest, ending, t =>
      if cancelledAt cancelAt t then
        ([.runFinished threadId runId (.obj [("status", .str "completed")])], none)
      else runLoop threadId runId cancelAt rest ending t

/-- Model of `BaseAgent.run`: `RUN_STARTED` first (unconditionally), then
the wrapped processing stream. -/
def runAgent (threadId runId : String) (cancelAt : Option Nat)
    (steps : List ProcStep) (ending : ProcEnding) :
    List AgentEvent × Option String :=
  let (es, exc) := runLoop threadId runId cancelAt steps ending 1
  (AgentEvent.runStarted threadId runId :: es, exc)

/-! ## OpenAI streaming adapter (`OpenAIClient.chat_stream`) -/

/-- One tool-call fragment of a streamed delta (`delta["tool_calls"][i]`):
the provider-supplied index plus the optionally present id, function name
and function-arguments fields (`none` models an absent key). -/
structure ToolCallFragment where
  index : Nat
  id : Option String := none
  name : Option String := none
  arguments : Option String := none

/-- Accumulated tool call in `tool_calls_buffer` (the constant
`"type": "function"` field is implicit). -/
structure BufEntry where
  id : String := ""
  name : String := ""
  arguments : String := ""
deriving DecidableEq

/-- Per-key update of the buffer entry at the fragment's index: `id` and
`name` are overwritten when present, `arguments` is concatenated. -/
def applyFragment (tc : ToolCallFragment) : List (Nat × BufEntry) →
    List (Nat × BufEntry)
  | [] => []
  | (idx, e) :: rest =>
      if idx = tc.index then
        (idx, { id := tc.id.getD e.id, name := tc.name.getD e.name,
                arguments := e.arguments ++ tc.arguments.getD "" })
          :: applyFragment tc rest
      else (idx, e) :: applyFragment tc rest

/-- Application of one fragment to the buffer, mirroring the insertion of
a missing index followed by the per-key updates. -/
def updateBuffer (buf : List (Nat × BufEntry)) (tc : ToolCallFragment) :
    List (Nat × BufEntry) :=
  let buf₁ :=
    if (buf.lookup tc.index).isNone then
      buf ++ [(tc.index, { id := tc.id.getD "" })]
    else buf
  applyFragment tc buf₁

/-- Streamed chunk as the agent loops see it (`LLMStreamChunk`); the
accumulated tool calls keep buffer insertion order, as
`list(tool_calls_buffer.values())` does on an insertion-ordered dict. -/
structure LLMStreamChunk where
  content : String
  finishReason : Option String := none
  toolCalls : Option (List BufEntry) := none
  isFinal : Bool := false
deriving DecidableEq

/-- First choice of one parsed stream data object: the delta fields the
adapter reads.  An absent or null `content` key is modelled as `""` (the
adapter's `delta.get("content", "")` followed by falsy tests makes the
two indistinguishable downstream). -/
structure StreamChoice where
  content : String := ""
  finishReason : Option String := none
  toolCalls : List ToolCallFragment := []

/-- One item of the SSE line stream after framing: the `[DONE]` sentinel,
a parsed data object with its (possibly empty) choices, or a line that is
skipped (non-`data:` framing or invalid JSON). -/
inductive StreamItem where
  | done
  | chunk (choices : List StreamChoice)
  | skipped

/-- The chunk sequence yielded by `chat_stream` over the given item
stream, threading the index-keyed tool-call buffer. -/
def openaiChatStream (buf : List (Nat × BufEntry)) :
    List StreamItem → List LLMStreamChunk
  | [] => []
  | .done :: _ => [{ content := "", isFinal := true }]
  | .skipped :: rest => openaiChatStream buf rest
  | .chunk [] :: rest => openaiChatStream buf rest
  | .chunk (choice :: _) :: rest =>
      let buf' := choice.toolCalls.foldl updateBuffer buf
      let tcs :=
        if choice.finishReason = some "tool_calls" ∧ ¬ buf'.isEmpty then
          some (buf'.map (·.2))
        else none
      { content := choice.content, finishReason := choice.finishReason
        toolCalls := tcs, isFinal := choice.finishReason.isSome } ::
        openaiChatStream buf' rest

/-! ## ReAct loop (`app/agents/react.py`)

The loop is embedded with the default system prompt (custom prompts pass
through Python `str.format`, whose general placeholder engine is not
needed by any claim).  The constant cancellation flag of the run is a
parameter; `Outcome` records whether the generator finished, raised, or
entered a path outside the modelled subset (dynamic values violating the
source type annotations, e.g. a non-string answer sliced like a string). -/

/-- How an embedded `_process` body ends. -/
inductive Outcome where
  | finished
  | raised (msg : String)
  | unmodeled
deriving DecidableEq

/-- Result of an embedded processing loop: yielded events, next fresh-id
counter, ending. -/
structure ProcOut where
  events : List AgentEvent
  ctr : Nat
  outcome : Outcome

/-- The events of one chunked emission loop
(`for i in range(0, len(s), n+1): if cancelled: return; yield mk chunk`),
with a flag telling whether the loop ran to completion (`false` means the
surrounding generator returned early on cancellation). -/
def emitChunksEvents (cancelled : Bool) (mk : String → AgentEvent) (n : Nat)
    (s : String) : List AgentEvent × Bool :=
  if s.toList.isEmpty then ([], true)
  else if cancelled then ([], false)
  else ((pyChunksStr n s).map mk, true)

/-- Tool definition visible to the loops (`Tool`); the handler lives in
the handler table. -/
structure ToolDef where
  name : String
  description : String
  parameters : Json := .obj []

/-- Leftmost match of the fenced-block regex
`(?:json)?\s*([\s\S]*?)```` over the remaining input: at the first
position opening a fence, skip an optional `json` tag and greedy
whitespace, then take the lazily shortest group closed by a further
fence; if no closing fence follows, the scan resumes at the next
position (characters of the tag and the skipped whitespace cannot open
or close a fence, so this agrees with regex backtracking). -/
def upToTicks : List Char → Option (List Char)
  | [] => none
  | c :: cs =>
      if c = '\x60' ∧ cs.take 2 = ['\x60', '\x60'] then some []
      else (upToTicks cs).map (c :: ·)

/-- Scan for the first fenced block; returns the matched group. -/
def fenceSearch : List Char → Option (List Char)
  | [] => none
  | c :: cs =>
      if c = '\x60' ∧ cs.take 2 = ['\x60', '\x60'] then
        let after := cs.drop 2
        let afterTag :=
          if after.take 4 = ['j', 's', 'o', 'n'] then after.drop 4 else after
        let start := afterTag.dropWhile pyWsChar
        match upToTicks start with
        | some grp => some grp
        | none => fenceSearch cs
      else fenceSearch cs

/-- Extraction of the first fenced code block of a response
(`re.search` of the fence pattern), as a string. -/
def fencedBlock (content : String) : Option String :=
  (fenceSearch content.toList).map String.mk

/-- Model of `ReActAgent._parse_response`: fenced JSON, then whole-content
JSON, then the final-answer fallback carrying the raw content. -/
def reactParseResponse (content : String) : Json :=
  let fromFence :=
    match fencedBlock content with
    | some grp => jsonLoads (pyStrip grp)
    | none => none
  match fromFence with
  | some j => j
  | none =>
    match jsonLoads (pyStrip content) with
    | some j => j
    | none =>
        .obj [("thought", .str "Providing direct response"),
              ("action", .str "final_answer"),
              ("action_input", .obj [("answer", .str content)])]

/-- Tools description of the ReAct system prompt. -/
def reactToolsDescription (tools : List ToolDef) : String :=
  if tools.isEmpty then "No tools available."
  else
    pyJoin "\n" (tools.map fun t =>
      "- " ++ t.name ++ ": " ++ t.description ++ "\n  Parameters: "
        ++ jsonDumps t.parameters)

/-- History summary of the ReAct system prompt: last 10 messages, each
line `Role: content` with content truncated at 200 characters. -/
def reactHistorySummary (hist : List LLMMessage) : String :=
  let lines := (pyLastN 10 hist).map fun m =>
    pyCapitalize m.role.value ++ ": " ++ pyTruncate 200 m.content
  if lines.isEmpty then "No previous messages." else pyJoin "\n" lines

/-- The `REACT_SYSTEM_PROMPT` template applied to its two placeholders
(`{{`/`}}` unescaped to braces by `str.format`). -/
def reactSystemPromptFmt (toolsDescription history : String) : String :=
  "You are a helpful AI assistant that can use tools to help answer questions.\n\nYou have access to the following tools:\n"
  ++ toolsDescription
  ++ "\n\nWhen you need to use a tool, respond with the following JSON format:\n\x60\x60\x60json\n\x7b\n    \x22thought\x22: \x22Your reasoning about what to do\x22,\n    \x22action\x22: \x22tool_name\x22,\n    \x22action_input\x22: \x7b\x22param1\x22: \x22value1\x22\x7d\n\x7d\n\x60\x60\x60\n\nWhen you have the final answer and don\x27t need any more tools, respond with:\n\x60\x60\x60json\n\x7b\n    \x22thought\x22: \x22Your final reasoning\x22,\n    \x22action\x22: \x22final_answer\x22,\n    \x22action_input\x22: \x7b\x22answer\x22: \x22Your final answer to the user\x22\x7d\n\x7d\n\x60\x60\x60\n\nImportant rules:\n1. Always think step by step before taking action\n2. Only use one tool at a time\n3. Wait for the observation before continuing\n4. Provide clear, helpful answers\n5. If you cannot answer with the available tools, explain what you need\n\nCurrent conversation:\n"
  ++ history ++ "\n"

/-- Model of `ReActAgent._build_system_prompt` (default template). -/
def reactBuildSystemPrompt (tools : List ToolDef) (hist : List LLMMessage) :
    String :=
  reactSystemPromptFmt (reactToolsDescription tools) (reactHistorySummary hist)

/-- The events of one thinking phase: `STEP_STARTED`, one `STEP_CONTENT`
per non-empty chunk, `STEP_FINISHED`. -/
def thinkingEvents (stepName : String) (chunks : List String) :
    List AgentEvent :=
  AgentEvent.stepStarted stepName ::
    (chunks.filter (fun c => ¬ (c = ""))).map (AgentEvent.stepContent stepName)
    ++ [AgentEvent.stepFinished stepName]

/-- The max-iterations fallback message, built from the last history
entry. -/
def reactFallbackText (lastContent : String) : String :=
  "I\x27ve reached the maximum number of reasoning steps. Based on my analysis, here\x27s what I found:\n\n"
    ++ lastContent

/-- The body of `ReActAgent._process` from the top of the `while` loop,
by recursion on the remaining iteration budget
(`max_iterations - iteration`).  At budget 0 the max-iterations fallback
streams a message built from the last history entry. -/
def reactLoop (llm : LLMOracle) (handlers : String → Option ToolHandler)
    (tools : List ToolDef) (uuid : IdSupply) (cancelled : Bool) :
    Nat → List LLMMessage → Nat → ProcOut
  | 0, hist, ctr =>
    let fallback :=
      reactFallbackText
        (match hist.getLast? with
         | some m => m.content
         | none => "Unable to provide a conclusion.")
    let fid := uuid ctr
    let (chunkEvs, ranToEnd) :=
      emitChunksEvents cancelled (AgentEvent.textMessageContent fid) 9 fallback
    if ranToEnd then
      ⟨[.stepStarted "final", .textMessageStart fid "assistant"] ++ chunkEvs
        ++ [.textMessageEnd fid, .stepFinished "final"], ctr + 1, .finished⟩
    else
      ⟨[.stepStarted "final", .textMessageStart fid "assistant"] ++ chunkEvs,
        ctr + 1, .finished⟩
  | r + 1, hist, ctr =>
    if cancelled then ⟨[], ctr, .finished⟩
    else
      let sysPrompt := reactBuildSystemPrompt tools hist
      let chunks := llm (⟨.system, sysPrompt, none, none⟩ :: hist)
      if cancelled ∧ ¬ chunks.isEmpty then
        ⟨[.stepStarted "thinking"], ctr, .finished⟩
      else
        let evs₁ := thinkingEvents "thinking" chunks
        let full := pyJoin "" chunks
        match reactParseResponse full with
        | .obj kvs =>
          let action := (jsonGet kvs "action").getD (.str "final_answer")
          let actionInput := (jsonGet kvs "action_input").getD (.obj [])
          let hist₂ := hist ++ [⟨.assistant, full, none, none⟩]
          if jsonEqStr action "final_answer" then
            match actionInput with
            | .obj akvs =>
              match (jsonGet akvs "answer").getD (.str full) with
              | .str answer =>
                let fid := uuid ctr
                let (chunkEvs, ranToEnd) :=
                  emitChunksEvents cancelled
                    (AgentEvent.textMessageContent fid) 9 answer
                if ranToEnd then
                  ⟨evs₁ ++ [.stepStarted "final_answer",
                      .textMessageStart fid "assistant"] ++ chunkEvs
                    ++ [.textMessageEnd fid, .stepFinished "final_answer"],
                    ctr + 1, .finished⟩
                else
                  ⟨evs₁ ++ [.stepStarted "final_answer",
                      .textMessageStart fid "assistant"] ++ chunkEvs,
                    ctr + 1, .finished⟩
              | _ => ⟨evs₁, ctr, .unmodeled⟩
            | _ =>
                ⟨evs₁, ctr, .raised "object has no attribute \x27get\x27"⟩
          else
            match action with
            | .str toolName =>
              let tcid := uuid ctr
              let result := callTool handlers toolName actionInput tcid
              let resultContent :=
                if result.success then result.content
                else "Error: " ++ result.error.getD ""
              let actionEvs : List AgentEvent :=
                [.stepStarted "action",
                 .toolCallStart tcid toolName none,
                 .toolCallArgs tcid (jsonDumps actionInput),
                 .toolCallEnd tcid,
                 .toolCallResult (uuid (ctr + 1)) tcid resultContent,
                 .stepFinished "action"]
              let hist₃ := hist₂ ++ [⟨.user, "Observation: " ++ resultContent, none, none⟩]
              let rest :=
                reactLoop llm handlers tools uuid cancelled r hist₃ (ctr + 2)
              ⟨evs₁ ++ actionEvs ++ rest.events, rest.ctr, rest.outcome⟩
            | _ => ⟨evs₁, ctr, .unmodeled⟩
        | _ => ⟨evs₁, ctr, .raised "object has no attribute \x27get\x27"⟩

/-- Model of `ReActAgent._process`: append the user message to history,
then run the iteration loop with the configured budget. -/
def reactProcess (llm : LLMOracle) (handlers : String → Option ToolHandler)
    (tools : List ToolDef) (cfg : AgentConfig) (uuid : IdSupply)
    (cancelled : Bool) (message : String) (hist : List LLMMessage) : ProcOut :=
  reactLoop llm handlers tools uuid cancelled cfg.maxIterations
    (hist ++ [⟨.user, message, none, none⟩]) 0

/-! ## Agentic-RAG loop (`app/agents/agentic_rag.py`)

Retrieved chunks are dicts `{"content", "metadata": {"source"}, "score"}`
in the source; chunk scores are floats used only through their `"%.2f"`
rendering, so the embedding carries that rendering (`scoreFmt`) instead
of a float.  The injected retrieval function may raise, modelled with
`Except`. -/

/-- RAG-specific configuration fields that influence control flow. -/
structure RAGConfig where
  topK : Nat := 5
  maxRetrievalAttempts : Nat := 3
  includeSources : Bool := true
  alwaysRetrieve : Bool := false

/-- One retrieved chunk: content, metadata source, and the two-decimal
rendering of its relevance score. -/
structure RagChunk where
  content : String
  source : String
  scoreFmt : String

/-- Result of one retrieval (`RetrievalResult`). -/
structure RetrievalResult where
  query : String
  knowledgeBaseId : String
  chunks : List RagChunk := []
  totalFound : Nat := 0

/-- Injected retrieval capability
(`async (query, knowledge_base_ids, top_k) -> [RetrievalResult]`). -/
def RetrievalFunc := String → List String → Nat → Except String (List RetrievalResult)

/-- The mock chunk text returned when no retrieval function is
configured. -/
def mockRetrievalText (query : String) : String :=
  "[Mock retrieval] No retrieval function configured. Query: " ++ query

/-- Model of `AgenticRAGAgent._retrieve`: without a configured function
the mock single-chunk result; with one, its results, or the error result
when it raises.  The explicit knowledge-base argument falls back to the
agent's configured list when absent or empty (Python `or`). -/
def ragRetrieve (rfunc : Option RetrievalFunc) (selfKbIds : List String)
    (topK : Nat) (query : String) (kbIdsArg : Option (List String)) :
    List RetrievalResult :=
  match rfunc with
  | none =>
      [{ query := query, knowledgeBaseId := "mock"
         chunks := [{ content := mockRetrievalText query,
                      source := "mock", scoreFmt := "0.00" }]
         totalFound := 1 }]
  | some f =>
    let kbIds :=
      match kbIdsArg with
      | none => selfKbIds
      | some [] => selfKbIds
      | some l => l
    match f query kbIds topK with
    | .ok results => results
    | .error e =>
        [{ query := query, knowledgeBaseId := "error"
           chunks := [{ content := ("Retrieval error: " ++ e),
                        source := "error", scoreFmt := "0.00" }]
           totalFound := 0 }]

/-- Numbered chunk lines of `_format_retrieved_context` (1-based). -/
def ragChunkParts (i : Nat) : List RagChunk → List String
  | [] => []
  | c :: rest =>
      ("[" ++ toString i ++ "] (Score: " ++ c.scoreFmt ++ ", Source: "
        ++ c.source ++ ")") :: c.content :: "" :: ragChunkParts (i + 1) rest

/-- Context parts contributed by one retrieval result (skipped when it
has no chunks). -/
def ragResultParts (r : RetrievalResult) : List String :=
  if r.chunks.isEmpty then []
  else
    ("### Results from: " ++ r.knowledgeBaseId) :: ("Query: " ++ r.query)
      :: "" :: ragChunkParts 1 r.chunks

/-- Model of `AgenticRAGAgent._format_retrieved_context`. -/
def formatRetrievedContext (results : List RetrievalResult) : String :=
  if results.isEmpty then "No relevant documents found."
  else pyJoin "\n" (results.flatMap ragResultParts)

/-- The `AGENTIC_RAG_SYSTEM_PROMPT` template applied to its three
placeholders. -/
def ragSystemPromptFmt (knowledgeBases context history : String) : String :=
  "You are a helpful AI assistant with access to a knowledge base.\n\nYour task is to answer questions accurately using the provided context when relevant.\n\n## Available Knowledge Bases\n"
  ++ knowledgeBases
  ++ "\n\n## Instructions\n\n1. **Analyze the Question**: Determine if you need to retrieve information from the knowledge base.\n   - Factual questions, specific details, or domain-specific queries → RETRIEVE\n   - General conversation, greetings, or common knowledge → ANSWER DIRECTLY\n\n2. **When Retrieving**:\n   - Formulate a clear search query\n   - Review the retrieved context carefully\n   - If the context doesn\x27t fully answer the question, you may retrieve again with a refined query\n\n3. **When Answering**:\n   - Base your answer on the retrieved context when available\n   - Cite sources when using information from the knowledge base\n   - Be honest if the knowledge base doesn\x27t contain relevant information\n   - Combine retrieved information with your general knowledge when appropriate\n\n4. **Response Format**:\n   When you need to retrieve, respond with:\n   \x60\x60\x60json\n   \x7b\n       \x22action\x22: \x22retrieve\x22,\n       \x22query\x22: \x22your search query\x22,\n       \x22knowledge_base_ids\x22: [\x22kb_id1\x22, \x22kb_id2\x22]\n   \x7d\n   \x60\x60\x60\n\n   When you\x27re ready to answer, respond with:\n   \x60\x60\x60json\n   \x7b\n       \x22action\x22: \x22answer\x22,\n       \x22answer\x22: \x22Your complete answer here\x22,\n       \x22sources\x22: [\x22source1\x22, \x22source2\x22]\n   \x7d\n   \x60\x60\x60\n\n## Retrieved Context\n"
  ++ context
  ++ "\n\n## Conversation History\n"
  ++ history ++ "\n"

/-- Model of `AgenticRAGAgent._build_system_prompt` (default template):
knowledge-base list, retrieved context (with its empty-string fallback),
and the last 6 history messages truncated at 300 characters. -/
def ragBuildSystemPrompt (kbIds : List String) (hist : List LLMMessage)
    (retrievedContext : String) : String :=
  let kbDesc :=
    if kbIds.isEmpty then "No knowledge bases configured."
    else pyJoin "\n" (kbIds.map (fun kb => "- " ++ kb))
  let lines := (pyLastN 6 hist).map fun m =>
    pyCapitalize m.role.value ++ ": " ++ pyTruncate 300 m.content
  let history := if lines.isEmpty then "No previous messages." else pyJoin "\n" lines
  let context :=
    if retrievedContext = "" then "No context retrieved yet." else retrievedContext
  ragSystemPromptFmt kbDesc context history

/-- Model of `AgenticRAGAgent._parse_response`: fenced JSON, whole-content
JSON, then the direct-answer fallback. -/
def ragParseResponse (content : String) : Json :=
  let fromFence :=
    match fencedBlock content with
    | some grp => jsonLoads (pyStrip grp)
    | none => none
  match fromFence with
  | some j => j
  | none =>
    match jsonLoads (pyStrip content) with
    | some j => j
    | none =>
        .obj [("action", .str "answer"), ("answer", .str content),
              ("sources", .arr [])]

/-- Result of the embedded RAG processing loop; `calls` logs the message
lists of the model turns in order, so properties about the system prompt
handed to the model can be stated. -/
structure RagOut where
  events : List AgentEvent
  calls : List (List LLMMessage)
  ctr : Nat
  outcome : Outcome

/-- Total chunk count of a retrieval, as reported in the
`"Retrieved {n} documents"` tool result. -/
def ragDocCount (results : List RetrievalResult) : Nat :=
  (results.map (fun r => r.chunks.length)).sum

/-- The main loop of `AgenticRAGAgent._process`, by recursion on the
remaining entry budget (`max_retrieval_attempts + 1 - retrieval_attempt`);
`attempt` carries the current `retrieval_attempt` for the final state
snapshot.  Budget 0 is the post-loop best-effort fallback. -/
def ragLoop (llm : LLMOracle) (rfunc : Option RetrievalFunc)
    (kbIds : List String) (cfg : RAGConfig) (uuid : IdSupply)
    (cancelled : Bool) (message : String) :
    Nat → Nat → String → List LLMMessage → Nat → RagOut
  | 0, _, _, hist, ctr =>
    let fallback :=
      "I\x27ve searched the knowledge base multiple times but couldn\x27t find a definitive answer. Based on what I found:\n\n"
        ++ (match hist.getLast? with
            | some m => m.content
            | none => "")
    let fid := uuid ctr
    let (chunkEvs, ranToEnd) :=
      emitChunksEvents cancelled (AgentEvent.textMessageContent fid) 9 fallback
    if ranToEnd then
      ⟨[.stepStarted "final_answer", .textMessageStart fid "assistant"]
        ++ chunkEvs ++ [.textMessageEnd fid, .stepFinished "final_answer"],
        [], ctr + 1, .finished⟩
    else
      ⟨[.stepStarted "final_answer", .textMessageStart fid "assistant"]
        ++ chunkEvs, [], ctr + 1, .finished⟩
  | remaining + 1, attempt, allCtx, hist, ctr =>
    if cancelled then ⟨[], [], ctr, .finished⟩
    else
      let sysPrompt := ragBuildSystemPrompt kbIds hist allCtx
      let msgs := (⟨.system, sysPrompt, none, none⟩ : LLMMessage) :: hist
      let rmid := uuid ctr
      let chunks := llm msgs
      if cancelled ∧ ¬ chunks.isEmpty then
        ⟨[.stepStarted "reasoning", .textMessageStart rmid "assistant",
          .textMessageEnd rmid], [msgs], ctr + 1, .finished⟩
      else
        let contentEvs :=
          (chunks.filter (fun c => ¬ (c = ""))).map
            (AgentEvent.textMessageContent rmid)
        let evs₁ :=
          [AgentEvent.stepStarted "reasoning", .textMessageStart rmid "assistant"]
            ++ contentEvs ++ [.textMessageEnd rmid, .stepFinished "reasoning"]
        let full := pyJoin "" chunks
        match ragParseResponse full with
        | .obj kvs =>
          let action := (jsonGet kvs "action").getD (.str "answer")
          let hist₂ := hist ++ [⟨.assistant, full, none, none⟩]
          if jsonEqStr action "retrieve" then
            if remaining = 0 then
              let rest :=
                ragLoop llm rfunc kbIds cfg uuid cancelled message remaining
                  (attempt + 1) allCtx hist₂ (ctr + 1)
              ⟨evs₁ ++ rest.events, [msgs] ++ rest.calls, rest.ctr, rest.outcome⟩
            else
              match (jsonGet kvs "query").getD (.str message) with
              | .str query =>
                let kbArgOk : Option (List String) :=
                  match jsonGet kvs "knowledge_base_ids" with
                  | none => some kbIds
                  | some (.arr items) =>
                      items.foldr (fun it acc =>
                        match it, acc with
                        | .str s, some l => some (s :: l)
                        | _, _ => none) (some [])
                  | some _ => none
                match kbArgOk with
                | some kbUsed =>
                  let rid := uuid (ctr + 1)
                  let results := ragRetrieve rfunc kbIds cfg.topK query (some kbUsed)
                  let newCtx := formatRetrievedContext results
                  let allCtx₂ := allCtx ++ "\n\n" ++ newCtx
                  let retrEvs : List AgentEvent :=
                    [.stepStarted "retrieval",
                     .toolCallStart rid "knowledge_retrieval" (some rmid),
                     .toolCallArgs rid
                       (jsonDumps (.obj [("query", .str query),
                         ("knowledge_bases", .arr (kbUsed.map .str))])),
                     .toolCallEnd rid,
                     .toolCallResult (uuid (ctr + 2)) rid
                       ("Retrieved " ++ toString (ragDocCount results) ++ " documents"),
                     .stepFinished "retrieval"]
                  let hist₃ :=
                    hist₂ ++ [⟨.user, "Retrieved context:\n" ++ newCtx, none, none⟩]
                  let rest :=
                    ragLoop llm rfunc kbIds cfg uuid cancelled message remaining
                      (attempt + 1) allCtx₂ hist₃ (ctr + 3)
                  ⟨evs₁ ++ retrEvs ++ rest.events, [msgs] ++ rest.calls,
                    rest.ctr, rest.outcome⟩
                | none => ⟨evs₁, [msgs], ctr + 1, .unmodeled⟩
              | _ => ⟨evs₁, [msgs], ctr + 1, .unmodeled⟩
          else if jsonEqStr action "answer" then
            match (jsonGet kvs "answer").getD (.str full) with
            | .str answer =>
              let sourcesOk : Option (List String) :=
                match (jsonGet kvs "sources").getD (.arr []) with
                | .arr items =>
                    items.foldr (fun it acc =>
                      match it, acc with
                      | .str s, some l => some (s :: l)
                      | _, _ => none) (some [])
                | _ => none
              match sourcesOk with
              | some sources =>
                let fid := uuid (ctr + 1)
                let (ansEvs, ansDone) :=
                  emitChunksEvents cancelled
                    (AgentEvent.textMessageContent fid) 9 answer
                if ¬ ansDone then
                  ⟨evs₁ ++ [.stepStarted "final_answer",
                    .textMessageStart fid "assistant"] ++ ansEvs,
                    [msgs], ctr + 2, .finished⟩
                else
                  let (srcEvs, srcDone) :=
                    if ¬ sources.isEmpty ∧ cfg.includeSources then
                      emitChunksEvents cancelled
                        (AgentEvent.textMessageContent fid) 9
                        ("\n\n---\n**Sources:**\n"
                          ++ pyJoin "\n" (sources.map (fun s => "- " ++ s)))
                    else ([], true)
                  if ¬ srcDone then
                    ⟨evs₁ ++ [.stepStarted "final_answer",
                      .textMessageStart fid "assistant"] ++ ansEvs ++ srcEvs,
                      [msgs], ctr + 2, .finished⟩
                  else
                    let snapEvs : List AgentEvent :=
                      if ¬ (allCtx = "") then
                        [.stateSnapshot (.obj
                          [("retrieved_documents", .num (toString attempt)),
                           ("knowledge_bases_used", .arr (kbIds.map .str))])]
                      else []
                    ⟨evs₁ ++ [.stepStarted "final_answer",
                      .textMessageStart fid "assistant"] ++ ansEvs ++ srcEvs
                      ++ [.textMessageEnd fid, .stepFinished "final_answer"]
                      ++ snapEvs, [msgs], ctr + 2, .finished⟩
              | none => ⟨evs₁, [msgs], ctr + 1, .unmodeled⟩
            | _ => ⟨evs₁, [msgs], ctr + 1, .unmodeled⟩
          else
            let fid := uuid (ctr + 1)
            let (ansEvs, ansDone) :=
              emitChunksEvents cancelled
                (AgentEvent.textMessageContent fid) 9 full
            if ansDone then
              ⟨evs₁ ++ [.stepStarted "final_answer",
                .textMessageStart fid "assistant"] ++ ansEvs
                ++ [.textMessageEnd fid, .stepFinished "final_answer"],
                [msgs], ctr + 2, .finished⟩
            else
              ⟨evs₁ ++ [.stepStarted "final_answer",
                .textMessageStart fid "assistant"] ++ ansEvs,
                [msgs], ctr + 2, .finished⟩
        | _ => ⟨evs₁, [msgs], ctr + 1,
            .raised "object has no attribute \x27get\x27"⟩

/-- Model of `AgenticRAGAgent._process`: append the user message, perform
the initial retrieval when `always_retrieve` is set and knowledge bases
are configured, then run the reasoning loop. -/
def ragProcess (llm : LLMOracle) (rfunc : Option RetrievalFunc)
    (kbIds : List String) (cfg : RAGConfig) (uuid : IdSupply)
    (cancelled : Bool) (message : String) (hist : List LLMMessage) : RagOut :=
  let hist₁ := hist ++ [⟨.user, message, none, none⟩]
  if cfg.alwaysRetrieve ∧ ¬ kbIds.isEmpty then
    let rid := uuid 0
    let results := ragRetrieve rfunc kbIds cfg.topK message none
    let allCtx := formatRetrievedContext results
    let initEvs : List AgentEvent :=
      [.stepStarted "retrieval",
       .toolCallStart rid "knowledge_retrieval" none,
       .toolCallArgs rid
         (jsonDumps (.obj [("query", .str message),
           ("knowledge_bases", .arr (kbIds.map .str))])),
       .toolCallEnd rid,
       .toolCallResult (uuid 1) rid
         ("Retrieved " ++ toString (ragDocCount results) ++ " documents"),
       .stepFinished "retrieval"]
    let rest :=
      ragLoop llm rfunc kbIds cfg uuid cancelled message
        cfg.maxRetrievalAttempts 1 allCtx hist₁ 2
    ⟨initEvs ++ rest.events, rest.calls, rest.ctr, rest.outcome⟩
  else
    ragLoop llm rfunc kbIds cfg uuid cancelled message
      (cfg.maxRetrievalAttempts + 1) 0 "" hist₁ 0

/-! ## Plan-and-Execute loop (`app/agents/plan_execute.py`) -/

/-- Status of a task in the plan. -/
inductive TaskStatus where
  | pending
  | inProgress
  | completed
  | failed
  | skipped
deriving DecidableEq

/-- The enum `value` string of a task status. -/
def TaskStatus.value : TaskStatus → String
  | .pending => "pending"
  | .inProgress => "in_progress"
  | .completed => "completed"
  | .failed => "failed"
  | .skipped => "skipped"

/-- A single task of the plan. -/
structure PlanTask where
  id : String
  title : String
  description : String
  status : TaskStatus := .pending
  dependencies : List String := []
  result : Option String := none
  error : Option String := none
  toolCalls : List String := []
deriving DecidableEq

/-- The execution plan. -/
structure Plan where
  goal : String
  tasks : List PlanTask
  currentTaskIndex : Nat := 0
  revision : Nat := 0
deriving DecidableEq

/-- Rendering of an optional string field for `to_dict` (None becomes
JSON null). -/
def optStrJson : Option String → Json
  | none => .null
  | some s => .str s

/-- Model of `PlanTask.to_dict`. -/
def taskToDict (t : PlanTask) : Json :=
  .obj [("id", .str t.id), ("title", .str t.title),
        ("description", .str t.description), ("status", .str t.status.value),
        ("dependencies", .arr (t.dependencies.map .str)),
        ("result", optStrJson t.result), ("error", optStrJson t.error)]

/-- Model of `Plan.to_dict`. -/
def planToDict (p : Plan) : Json :=
  .obj [("goal", .str p.goal), ("tasks", .arr (p.tasks.map taskToDict)),
        ("current_task_index", .num (toString p.currentTaskIndex)),
        ("revision", .num (toString p.revision))]

/-- The dependency check of `Plan.get_next_executable_task`: every
dependency id has some task in the plan with that id and status
`completed`. -/
def depsMet (tasks : List PlanTask) (t : PlanTask) : Bool :=
  t.dependencies.all fun d =>
    tasks.any fun u => u.id == d && u.status == TaskStatus.completed

/-- First pending task (in plan order) whose dependencies are met,
together with its position. -/
def peSelectAux (tasks : List PlanTask) (i : Nat) : List PlanTask → Option (Nat × PlanTask)
  | [] => none
  | t :: rest =>
      if t.status == TaskStatus.pending && depsMet tasks t then some (i, t)
      else peSelectAux tasks (i + 1) rest

/-- Selection of the next executable task with its index. -/
def peSelect (p : Plan) : Option (Nat × PlanTask) :=
  peSelectAux p.tasks 0 p.tasks

/-- Model of `Plan.get_next_executable_task`. -/
def getNextExecutableTask (p : Plan) : Option PlanTask :=
  (peSelect p).map (·.2)

/-- Model of `Plan.is_complete`: every task is completed, skipped or
failed. -/
def planIsComplete (p : Plan) : Bool :=
  p.tasks.all fun t =>
    t.status == TaskStatus.completed || t.status == TaskStatus.skipped
      || t.status == TaskStatus.failed

/-- Model of `Plan.get_completed_results`: one line per completed task
with a truthy (non-empty) result. -/
def getCompletedResults (p : Plan) : String :=
  let results := p.tasks.filterMap fun t =>
    if t.status == TaskStatus.completed then
      match t.result with
      | some r => if r = "" then none else some ("[" ++ t.title ++ "]: " ++ r)
      | none => none
    else none
  if results.isEmpty then "No completed tasks yet." else pyJoin "\n" results

/-- Configuration of the Plan-and-Execute agent; `max_planning_attempts`
and `allow_replanning` are declared in the source but unread by
`_process`, and are kept for fidelity. -/
structure PlanExecuteConfig where
  maxIterations : Nat := 10
  maxPlanningAttempts : Nat := 3
  maxExecutionRetries : Nat := 2
  allowReplanning : Bool := true
  maxTasksPerPlan : Nat := 10

/-- Model of `PlanAndExecuteAgent._get_tools_description`. -/
def peToolsDescription (tools : List ToolDef) : String :=
  if tools.isEmpty then "No tools available. Complete tasks using reasoning only."
  else
    pyJoin "\n" (tools.map fun t =>
      "- **" ++ t.name ++ "**: " ++ t.description ++ "\n  Parameters: "
        ++ jsonDumps t.parameters)

/-- The `PLANNING_SYSTEM_PROMPT` template applied to its placeholders. -/
def pePlanningPromptFmt (toolsDescription : String) (maxTasks : Nat) : String :=
  "You are a planning agent that breaks down complex tasks into manageable steps.\n\n## Your PlanTask\nGiven a user request, create a detailed plan to accomplish it.\n\n## Available Tools\n"
  ++ toolsDescription
  ++ "\n\n## Planning Guidelines\n\n1. **Analyze the Goal**: Understand what the user wants to achieve\n2. **Break Down**: Divide the task into smaller, actionable subtasks\n3. **Order Tasks**: Arrange tasks in logical order with dependencies\n4. **Be Specific**: Each task should have a clear, measurable outcome\n5. **Consider Tools**: Plan which tools will be needed for each task\n\n## Response Format\n\nRespond with a JSON plan:\n\x60\x60\x60json\n\x7b\n    \x22goal\x22: \x22Summary of the overall goal\x22,\n    \x22tasks\x22: [\n        \x7b\n            \x22id\x22: \x22task_1\x22,\n            \x22title\x22: \x22Short task title\x22,\n            \x22description\x22: \x22Detailed description of what to do\x22,\n            \x22dependencies\x22: []\n        \x7d,\n        \x7b\n            \x22id\x22: \x22task_2\x22,\n            \x22title\x22: \x22Another task\x22,\n            \x22description\x22: \x22Depends on task_1\x22,\n            \x22dependencies\x22: [\x22task_1\x22]\n        \x7d\n    ]\n\x7d\n\x60\x60\x60\n\n## Important Rules\n- Maximum "
  ++ toString maxTasks
  ++ " tasks per plan\n- Each task should be completable with available tools\n- Tasks should be independent when possible (fewer dependencies)\n- Include a final task to synthesize results\n"

/-- Model of `_build_planning_prompt`. -/
def peBuildPlanningPrompt (tools : List ToolDef) (maxTasks : Nat) : String :=
  pePlanningPromptFmt (peToolsDescription tools) maxTasks

/-- The `EXECUTION_SYSTEM_PROMPT` template applied to its placeholders. -/
def peExecutionPromptFmt (goal progress taskId taskTitle taskDescription
    previousResults toolsDescription : String) : String :=
  "You are an execution agent working on a specific task.\n\n## Current Plan\nGoal: "
  ++ goal ++ "\nProgress: " ++ progress
  ++ "\n\n## Your Current PlanTask\nID: " ++ taskId
  ++ "\nTitle: " ++ taskTitle
  ++ "\nDescription: " ++ taskDescription
  ++ "\n\n## Previous PlanTask Results\n" ++ previousResults
  ++ "\n\n## Available Tools\n" ++ toolsDescription
  ++ "\n\n## Instructions\n\nExecute the current task. You can:\n1. Use a tool to accomplish part of the task\n2. Complete the task with a final result\n\n## Response Format\n\nTo use a tool:\n\x60\x60\x60json\n\x7b\n    \x22action\x22: \x22tool\x22,\n    \x22tool_name\x22: \x22name_of_tool\x22,\n    \x22tool_input\x22: \x7b\x22param\x22: \x22value\x22\x7d\n\x7d\n\x60\x60\x60\n\nTo complete the task:\n\x60\x60\x60json\n\x7b\n    \x22action\x22: \x22complete\x22,\n    \x22result\x22: \x22Description of what was accomplished\x22\n\x7d\n\x60\x60\x60\n\nIf the task cannot be completed:\n\x60\x60\x60json\n\x7b\n    \x22action\x22: \x22fail\x22,\n    \x22reason\x22: \x22Why the task failed\x22\n\x7d\n\x60\x60\x60\n"

/-- Model of `_build_execution_prompt`. -/
def peBuildExecutionPrompt (tools : List ToolDef) (p : Plan) (t : PlanTask) :
    String :=
  let completed :=
    (p.tasks.filter (fun u => u.status == TaskStatus.completed)).length
  let progress := toString completed ++ "/" ++ toString p.tasks.length
    ++ " tasks completed"
  peExecutionPromptFmt p.goal progress t.id t.title t.description
    (getCompletedResults p) (peToolsDescription tools)

/-- The `SYNTHESIS_SYSTEM_PROMPT` template applied to its placeholders. -/
def peSynthesisPromptFmt (goal taskResults : String) : String :=
  "You are synthesizing the results of a completed plan.\n\n## Goal\n"
  ++ goal
  ++ "\n\n## Completed Tasks and Results\n"
  ++ taskResults
  ++ "\n\n## Instructions\nProvide a comprehensive summary that:\n1. Answers the user\x27s original request\n2. Highlights key findings or actions taken\n3. Notes any issues or limitations encountered\n\nBe clear, concise, and helpful.\n"

/-- Model of `_build_synthesis_prompt`. -/
def peBuildSynthesisPrompt (p : Plan) : String :=
  let taskResults := pyJoin "\n\n" (p.tasks.map fun t =>
    "### " ++ t.title ++ "\nStatus: " ++ t.status.value ++ "\nResult: "
      ++ (match t.result with
          | some r => if r = "" then "N/A" else r
          | none => "N/A"))
  peSynthesisPromptFmt p.goal taskResults

/-- Model of `_parse_execution_response`: fenced block if present else the
whole content, parsed as JSON, with the direct-completion fallback. -/
def peParseExecutionResponse (content : String) : Json :=
  let jsonStr :=
    match fencedBlock content with
    | some grp => pyStrip grp
    | none => pyStrip content
  match jsonLoads jsonStr with
  | some j => j
  | none => .obj [("action", .str "complete"), ("result", .str content)]

/-- Outcome of `_parse_plan`: a plan, `None`, or a path outside the
modelled subset (non-string dynamic values where the source annotations
promise strings, or container operations on non-container values, which
raise in Python). -/
inductive PlanParse where
  | ok (p : Plan)
  | noPlan
  | abnormal

/-- PlanTask records of a parsed plan; `freshIds` supplies the
`str(uuid4())[:8]` default ids. -/
def peParseTasks (freshIds : IdSupply) (i : Nat) : List Json → Option (List PlanTask)
  | [] => some []
  | .obj kvs :: rest =>
    let idOk : Option String :=
      match jsonGet kvs "id" with
      | none => some (freshIds i)
      | some (.str s) => some s
      | some _ => none
    let titleOk : Option String :=
      match jsonGet kvs "title" with
      | none => some "Untitled Task"
      | some (.str s) => some s
      | some _ => none
    let descOk : Option String :=
      match jsonGet kvs "description" with
      | none => some ""
      | some (.str s) => some s
      | some _ => none
    let depsOk : Option (List String) :=
      match jsonGet kvs "dependencies" with
      | none => some []
      | some (.arr items) =>
          items.foldr (fun it acc =>
            match it, acc with
            | .str s, some l => some (s :: l)
            | _, _ => none) (some [])
      | some _ => none
    match idOk, titleOk, descOk, depsOk, peParseTasks freshIds (i + 1) rest with
    | some id, some title, some desc, some deps, some ts =>
        some ({ id := id, title := title, description := desc
                dependencies := deps } :: ts)
    | _, _, _, _, _ => none
  | _ :: _ => none

/-- Model of `PlanAndExecuteAgent._parse_plan`. -/
def peParsePlan (freshIds : IdSupply) (maxTasks : Nat) (content : String) :
    PlanParse :=
  let jsonStr :=
    match fencedBlock content with
    | some grp => pyStrip grp
    | none => pyStrip content
  match jsonLoads jsonStr with
  | none => .noPlan
  | some (.obj kvs) =>
    if (jsonGet kvs "goal").isSome ∧ (jsonGet kvs "tasks").isSome then
      match jsonGet kvs "goal", jsonGet kvs "tasks" with
      | some (.str goal), some (.arr items) =>
        match peParseTasks freshIds 0 (items.take maxTasks) with
        | some tasks => .ok { goal := goal, tasks := tasks }
        | none => .abnormal
      | _, _ => .abnormal
    else .noPlan
  | some (.arr items) =>
      if items.any (fun j => jsonEqStr j "goal")
          ∧ items.any (fun j => jsonEqStr j "tasks") then .abnormal
      else .noPlan
  | some _ => .abnormal

/-- JSON-Patch replace operation of a `STATE_DELTA` payload. -/
def patchReplace (path : String) (value : Json) : Json :=
  .obj [("op", .str "replace"), ("path", .str path), ("value", value)]

/-- Result of the inner per-task retry loop. -/
structure InnerOut where
  events : List AgentEvent
  ctr : Nat
  task : PlanTask
  completed : Bool
  early : Bool
  outcome : Outcome

/-- The inner retry loop of one task execution
(`while not task_completed and retry_count <= max_execution_retries`),
by recursion on the remaining entry budget
(`max_execution_retries + 1 - retry_count`). -/
def peInnerExec (llm : LLMOracle) (handlers : String → Option ToolHandler)
    (uuid : IdSupply) (cancelled : Bool) (stepName : String) :
    Nat → PlanTask → List LLMMessage → Nat → InnerOut
  | 0, task, _, ctr => ⟨[], ctr, task, false, false, .finished⟩
  | budget + 1, task, execMsgs, ctr =>
    if cancelled then ⟨[], ctr, task, false, true, .finished⟩
    else
      let chunks := llm execMsgs
      if cancelled ∧ ¬ chunks.isEmpty then ⟨[], ctr, task, false, true, .finished⟩
      else
        let contentEvs :=
          (chunks.filter (fun c => ¬ (c = ""))).map (AgentEvent.stepContent stepName)
        let execContent := pyJoin "" chunks
        match peParseExecutionResponse execContent with
        | .obj kvs =>
          let action := (jsonGet kvs "action").getD (.str "complete")
          if jsonEqStr action "tool" then
            match (jsonGet kvs "tool_name").getD (.str "") with
            | .str toolName =>
              let toolInput := (jsonGet kvs "tool_input").getD (.obj [])
              let tcid := uuid ctr
              let result := callTool handlers toolName toolInput tcid
              let resultContent :=
                if result.success then result.content
                else "Error: " ++ result.error.getD ""
              let evs := contentEvs ++
                [AgentEvent.toolCallStart tcid toolName none,
                 .toolCallArgs tcid (jsonDumps toolInput),
                 .toolCallEnd tcid,
                 .toolCallResult (uuid (ctr + 1)) tcid resultContent]
              let execMsgs₂ := execMsgs ++
                [⟨.assistant, execContent, none, none⟩,
                 ⟨.user, "Tool result: " ++ resultContent, none, none⟩]
              let task₂ := { task with toolCalls := task.toolCalls ++ [toolName] }
              let rest :=
                peInnerExec llm handlers uuid cancelled stepName budget task₂
                  execMsgs₂ (ctr + 2)
              ⟨evs ++ rest.events, rest.ctr, rest.task, rest.completed,
                rest.early, rest.outcome⟩
            | _ => ⟨contentEvs, ctr, task, false, false, .unmodeled⟩
          else if jsonEqStr action "complete" then
            match (jsonGet kvs "result").getD (.str execContent) with
            | .str res =>
                ⟨contentEvs, ctr,
                  { task with status := .completed, result := some res },
                  true, false, .finished⟩
            | _ => ⟨contentEvs, ctr, task, false, false, .unmodeled⟩
          else if jsonEqStr action "fail" then
            match (jsonGet kvs "reason").getD (.str "Task failed") with
            | .str reason =>
                ⟨contentEvs, ctr,
                  { task with status := .failed, error := some reason },
                  true, false, .finished⟩
            | _ => ⟨contentEvs, ctr, task, false, false, .unmodeled⟩
          else
            ⟨contentEvs, ctr,
              { task with status := .completed, result := some execContent },
              true, false, .finished⟩
        | _ => ⟨contentEvs, ctr, task, false, false,
            .raised "object has no attribute \x27get\x27"⟩

/-- Result of the execution phase.  The `exhausted` flag marks fuel
running out, a model artifact proven unreachable when the fuel is at
least the number of pending tasks (each loop iteration moves one pending
task to a terminal status, so the source loop terminates). -/
structure ExecOut where
  events : List AgentEvent
  ctr : Nat
  plan : Plan
  early : Bool
  exhausted : Bool
  outcome : Outcome

/-- The execution-phase loop (`while not plan.is_complete()`), by
recursion on fuel.  A selected task is marked in progress, executed by
the inner retry loop, force-failed on retry exhaustion, and replaced in
the plan; no selectable task breaks out of the loop. -/
def peExecPhase (llm : LLMOracle) (handlers : String → Option ToolHandler)
    (tools : List ToolDef) (cfg : PlanExecuteConfig) (uuid : IdSupply)
    (cancelled : Bool) (hist : List LLMMessage) :
    Nat → Plan → Nat → ExecOut
  | 0, plan, ctr => ⟨[], ctr, plan, false, true, .finished⟩
  | fuel + 1, plan, ctr =>
    if planIsComplete plan then ⟨[], ctr, plan, false, false, .finished⟩
    else if cancelled then ⟨[], ctr, plan, true, false, .finished⟩
    else
      match peSelect plan with
      | none => ⟨[], ctr, plan, false, false, .finished⟩
      | some (idx, task) =>
        let stepName := "executing:" ++ task.id
        let task₁ := { task with status := .inProgress }
        let plan₁ := { plan with tasks := plan.tasks.set idx task₁ }
        let evs₁ : List AgentEvent :=
          [.stateDelta [patchReplace
              ("/plan/tasks/" ++ toString idx ++ "/status") (.str "in_progress")],
           .stepStarted stepName]
        let execPrompt := peBuildExecutionPrompt tools plan₁ task₁
        let execMsgs :=
          (⟨.system, execPrompt, none, none⟩ : LLMMessage) :: pyLastN 5 hist
        let inner :=
          peInnerExec llm handlers uuid cancelled stepName
            (cfg.maxExecutionRetries + 1) task₁ execMsgs ctr
        if inner.early then
          ⟨evs₁ ++ inner.events, inner.ctr,
            { plan₁ with tasks := plan₁.tasks.set idx inner.task },
            true, false, .finished⟩
        else if ¬ (inner.outcome = .finished) then
          ⟨evs₁ ++ inner.events, inner.ctr,
            { plan₁ with tasks := plan₁.tasks.set idx inner.task },
            false, false, inner.outcome⟩
        else
          let taskF :=
            if inner.completed then inner.task
            else { inner.task with status := TaskStatus.failed,
                                   error := some "Maximum retries exceeded" }
          let plan₂ := { plan₁ with tasks := plan₁.tasks.set idx taskF }
          let evs₂ : List AgentEvent :=
            [.stepFinished stepName,
             .stateDelta [patchReplace
               ("/plan/tasks/" ++ toString idx) (taskToDict taskF)]]
          let rest :=
            peExecPhase llm handlers tools cfg uuid cancelled hist fuel plan₂
              inner.ctr
          ⟨evs₁ ++ inner.events ++ evs₂ ++ rest.events, rest.ctr, rest.plan,
            rest.early, rest.exhausted, rest.outcome⟩

/-- Result of the embedded Plan-and-Execute processing body. -/
structure PEOut where
  events : List AgentEvent
  ctr : Nat
  outcome : Outcome

/-- Model of `PlanAndExecuteAgent._process`: planning (with the
direct-answer fallback on an unparseable plan), execution, synthesis,
final state snapshot.  `freshIds` supplies default task ids drawn inside
`_parse_plan`. -/
def peProcess (llm : LLMOracle) (handlers : String → Option ToolHandler)
    (tools : List ToolDef) (cfg : PlanExecuteConfig) (uuid : IdSupply)
    (freshIds : IdSupply) (cancelled : Bool) (message : String)
    (hist₀ : List LLMMessage) : PEOut :=
  let hist := hist₀ ++ [⟨.user, message, none, none⟩]
  let planningPrompt := peBuildPlanningPrompt tools cfg.maxTasksPerPlan
  let messages :=
    (⟨.system, planningPrompt, none, none⟩ : LLMMessage)
      :: pyLastN 10 hist₀ ++ [⟨.user, message, none, none⟩]
  let chunks := llm messages
  if cancelled ∧ ¬ chunks.isEmpty then
    ⟨[.stepStarted "planning"], 0, .finished⟩
  else
    let contentEvs :=
      (chunks.filter (fun c => ¬ (c = ""))).map (AgentEvent.stepContent "planning")
    let evs₁ := AgentEvent.stepStarted "planning" :: contentEvs
    let full := pyJoin "" chunks
    match peParsePlan freshIds cfg.maxTasksPerPlan full with
    | .abnormal => ⟨evs₁, 0, .unmodeled⟩
    | .noPlan =>
      let fid := uuid 0
      ⟨evs₁ ++ [.stepFinished "planning", .textMessageStart fid "assistant",
        .textMessageContent fid
          ("I couldn\x27t create a structured plan. Let me answer directly:\n\n"
            ++ full),
        .textMessageEnd fid], 1, .finished⟩
    | .ok plan =>
      let evs₂ := evs₁ ++ [.stepFinished "planning",
        .stateSnapshot (.obj [("plan", planToDict plan)])]
      let ex :=
        peExecPhase llm handlers tools cfg uuid cancelled hist
          (plan.tasks.length + 1) plan 0
      if ex.early then ⟨evs₂ ++ ex.events, ex.ctr, .finished⟩
      else if ¬ (ex.outcome = .finished) then
        ⟨evs₂ ++ ex.events, ex.ctr, ex.outcome⟩
      else if ex.exhausted then ⟨evs₂ ++ ex.events, ex.ctr, .unmodeled⟩
      else
        let synthPrompt := peBuildSynthesisPrompt ex.plan
        let synthMsgs :=
          (⟨.system, synthPrompt, none, none⟩ : LLMMessage) :: pyLastN 5 hist
        let fid := uuid ex.ctr
        let chunks₂ := llm synthMsgs
        if cancelled ∧ ¬ chunks₂.isEmpty then
          ⟨evs₂ ++ ex.events ++ [.stepStarted "synthesis",
            .textMessageStart fid "assistant", .textMessageEnd fid],
            ex.ctr + 1, .finished⟩
        else
          let synthContentEvs :=
            (chunks₂.filter (fun c => ¬ (c = ""))).map
              (AgentEvent.textMessageContent fid)
          ⟨evs₂ ++ ex.events ++ [.stepStarted "synthesis",
            .textMessageStart fid "assistant"] ++ synthContentEvs
            ++ [.textMessageEnd fid, .stepFinished "synthesis",
                .stateSnapshot (.obj [("plan", planToDict ex.plan),
                  ("status", .str "completed")])],
            ex.ctr + 1, .finished⟩

/-! ## Agent factory (`app/agents/factory.py`) -/

/-- Registered agent classes; `customClass` stands for externally
registered extension classes. -/
inductive AgentClass where
  | reactClass
  | agenticRagClass
  | planExecuteClass
  | customClass (tag : String)
deriving DecidableEq

/-- The initial `AgentFactory._agents` registry. -/
def agentFactoryDefault : List (String × AgentClass) :=
  [("react", .reactClass), ("agentic_rag", .agenticRagClass),
   ("plan_execute", .planExecuteClass)]

/-- Python `repr` of `list(registry.keys())`, as interpolated into the
unsupported-type error message. -/
def pyListReprKeys (reg : List (String × AgentClass)) : String :=
  "[" ++ pyJoin ", " (reg.map (fun p => "\x27" ++ p.1 ++ "\x27")) ++ "]"

/-- Model of `AgentFactory.register`: stores the class under the
lower-cased type name. -/
def agentFactoryRegister (reg : List (String × AgentClass)) (agentType : String)
    (cls : AgentClass) : List (String × AgentClass) :=
  dictSet (pyLower agentType) cls reg

/-- Model of `AgentFactory.create` up to instantiation: resolves the
lower-cased type name, raising `ValueError` (modelled as `Except.error`)
exactly when it is not registered. -/
def agentFactoryCreate (reg : List (String × AgentClass)) (agentType : String) :
    Except String AgentClass :=
  match reg.lookup (pyLower agentType) with
  | some cls => .ok cls
  | none =>
      .error ("Unsupported agent type: " ++ agentType ++ ". Supported types: "
        ++ pyListReprKeys reg)

/-! ## Specification predicates -/

/-- A benign execution-phase model response: the parsed decision is a
dict and the string-typed fields the source reads on the taken branch
are strings, so the embedded inner loop stays inside the modelled subset
and raises nothing.  The JSON-decode fallback of
`_parse_execution_response` always satisfies this. -/
def tameExecResp (j : Json) : Bool :=
  match j with
  | .obj kvs =>
    let action := (jsonGet kvs "action").getD (.str "complete")
    if jsonEqStr action "tool" then
      match (jsonGet kvs "tool_name").getD (.str "") with
      | .str _ => true
      | _ => false
    else if jsonEqStr action "complete" then
      match (jsonGet kvs "result").getD (.str "") with
      | .str _ => true
      | _ => false
    else if jsonEqStr action "fail" then
      match (jsonGet kvs "reason").getD (.str "") with
      | .str _ => true
      | _ => false
    else true
  | _ => false

/-- Dependency id `d` can never be satisfied relative to a blocked-id set
`S`: no task carrying id `d` is completed, and any pending one is itself
blocked.  Covers failed, skipped, in-progress and nonexistent
dependencies, and members of dependency cycles. -/
def depNeverMet (p : Plan) (S : List String) (d : String) : Prop :=
  ∀ u ∈ p.tasks, u.id = d →
    u.status ≠ TaskStatus.completed ∧ (u.status = TaskStatus.pending → d ∈ S)

/-- Blocked-set invariant: every task whose id lies in `S` is pending and
has some dependency that can never be met relative to `S`. -/
def BlockedInv (p : Plan) (S : List String) : Prop :=
  ∀ t ∈ p.tasks, t.id ∈ S →
    t.status = TaskStatus.pending ∧ ∃ d ∈ t.dependencies, depNeverMet p S d

/-- Number of pending tasks of a plan (the execution-loop variant). -/
def countPending (p : Plan) : Nat :=
  (p.tasks.filter (fun t => t.status == TaskStatus.pending)).length

/-- Behaviour of the inner retry loop on the modelled (tame) model
responses: it never aborts early, never raises, keeps the task identity,
and a completed run leaves the task in a terminal `completed`/`failed`
status. -/
def InnerSpec (orig : PlanTask) (out : InnerOut) : Prop :=
  out.early = false ∧ out.outcome = Outcome.finished
    ∧ out.task.id = orig.id
    ∧ (out.completed = true →
        out.task.status = TaskStatus.completed
          ∨ out.task.status = TaskStatus.failed)

/-! ## Concrete instances for witnesses and counterexamples -/

/-- Deterministic fresh-id supply for concrete runs. -/
def wUuid : IdSupply := fun n => "id" ++ toString n

/-- Model oracle that always requests the `echo` tool. -/
def echoLlm : LLMOracle := fun _ =>
  ["\x7b\x22action\x22: \x22echo\x22, \x22action_input\x22: \x7b\x22text\x22: \x22hi\x22\x7d\x7d"]

/-- Handler table with an `echo` tool. -/
def echoHandlers : String → Option ToolHandler := fun n =>
  if n = "echo" then some (fun _ => .ok (.other "hi")) else none

/-- Handler table exercising the three `call_tool` result paths. -/
def demoHandlers : String → Option ToolHandler := fun n =>
  if n = "boom" then some (fun _ => .error "division by zero")
  else if n = "dict_tool" then some (fun _ => .ok (.dict [("a", .num "1")]))
  else if n = "str_tool" then some (fun _ => .ok (.other "42"))
  else none

/-- Model oracle that always answers with plain prose. -/
def proseLlm : LLMOracle := fun _ => ["Hello! I am just prose."]

/-- Model oracle whose every turn is the planning response of an
empty-task plan. -/
def emptyPlanLlm : LLMOracle := fun _ =>
  ["\x7b\x22goal\x22: \x22g\x22, \x22tasks\x22: []\x7d"]

/-- Empty handler table. -/
def noHandlers : String → Option ToolHandler := fun _ => none

/-- A dependency-free pending task. -/
def taskA : PlanTask := ⟨"A", "Task A", "", .pending, [], none, none, []⟩

/-- A pending task depending on a task id that does not exist. -/
def taskB : PlanTask := ⟨"B", "Task B", "", .pending, ["missing"], none, none, []⟩

/-- Two-task plan: an executable task followed by a blocked one. -/
def planAB : Plan := ⟨"demo", [taskA, taskB], 0, 0⟩

/-- One-task plan whose only task is blocked (no task is selectable). -/
def planB : Plan := ⟨"demo", [taskB], 0, 0⟩

/-- Sample non-lifecycle event for the run-wrapper scenarios. -/
def demoEvent : AgentEvent := .stepContent "thinking" "x"

/-- The events a processing step sequence yields when no cancellation or
abandonment intervenes. -/
def procEmits : List ProcStep → List AgentEvent
  | [] => []
  | .emit e :: rest => e :: procEmits rest
  | .checkCancel :: rest => procEmits rest

/-! ## Helper lemmas -/

theorem toListAppend (a b : String) : (a ++ b).toList = a.toList ++ b.toList := rfl

theorem lookup_dictSet {α : Type} (k : String) (v : α) (l : List (String × α)) :
    (dictSet k v l).lookup k = some v := by
  induction l with
  | nil => simp [dictSet, List.lookup]
  | cons p rest ih =>
    obtain ⟨k₀, v₀⟩ := p
    by_cases h : k₀ = k
    · simp [dictSet, h, List.lookup]
    · simp only [dictSet, if_neg h, List.lookup]
      have hne : (k == k₀) = false := by
        simp [beq_iff_eq]; exact fun hh => h hh.symm
      simp [hne, ih]

theorem getLast?_cons_of_some {α : Type} (a : α) (l : List α) (b : α)
    (h : l.getLast? = some b) : (a :: l).getLast? = some b := by
  cases l with
  | nil => simp at h
  | cons c l' => rw [List.getLast?_cons_cons]; exact h

theorem substr_self (s : String) : SubstrP s s := ⟨[], [], by simp⟩

theorem substr_append_right (n s b : String) (h : SubstrP n s) :
    SubstrP n (s ++ b) := by
  obtain ⟨x, y, hxy⟩ := h
  exact ⟨x, y ++ b.toList, by rw [toListAppend, hxy]; simp⟩

theorem substr_append_left (n s a : String) (h : SubstrP n s) :
    SubstrP n (a ++ s) := by
  obtain ⟨x, y, hxy⟩ := h
  exact ⟨a.toList ++ x, y, by rw [toListAppend, hxy]; simp⟩

theorem substr_pyJoin (sep : String) :
    ∀ (parts : List String) (p : String), p ∈ parts →
      SubstrP p (pyJoin sep parts) := by
  intro parts
  induction parts with
  | nil => intro p hp; cases hp
  | cons x rest ih =>
    intro p hp
    cases rest with
    | nil =>
      cases hp with
      | head => exact substr_self x
      | tail _ h => cases h
    | cons y t =>
      cases hp with
      | head =>
        exact substr_append_right _ _ _ (substr_append_right _ _ _ (substr_self x))
      | tail _ h =>
        exact substr_append_left _ _ _ (ih p h)

/-! ## Claim theorems -/

/-- C4: `call_tool` never propagates an exception (the embedded function
is total); a missing handler yields the failed result with error
`Tool '<name>' not found`; a raising handler yields a failed result with
error `str(exception)`; a dict result is serialized with `json.dumps`
and any other result is stringified. -/
theorem c4_call_tool_containment
    (handlers : String → Option ToolHandler) (name : String)
    (kvs : List (String × Json)) (tcid : String) :
    (handlers name = none →
      callTool handlers name (.obj kvs) tcid =
        { toolCallId := tcid, toolName := name, content := "", success := false
          error := some ("Tool \x27" ++ name ++ "\x27 not found") })
    ∧ (∀ h e, handlers name = some h → h kvs = .error e →
        callTool handlers name (.obj kvs) tcid =
          { toolCallId := tcid, toolName := name, content := "", success := false
            error := some e })
    ∧ (∀ h d, handlers name = some h → h kvs = .ok (.dict d) →
        callTool handlers name (.obj kvs) tcid =
          { toolCallId := tcid, toolName := name, content := jsonDumps (.obj d)
            success := true, error := none })
    ∧ (∀ h s, handlers name = some h → h kvs = .ok (.other s) →
        callTool handlers name (.obj kvs) tcid =
          { toolCallId := tcid, toolName := name, content := s
            success := true, error := none }) := by
  refine ⟨fun h => ?_, fun hh e h₁ h₂ => ?_, fun hh d h₁ h₂ => ?_,
    fun hh s h₁ h₂ => ?_⟩ <;> simp [callTool, *]

/-- C4 witness: the four containment paths at concrete inputs. -/
theorem c4_call_tool_containment_witness :
    callTool demoHandlers "nope" (.obj []) "t0" =
      { toolCallId := "t0", toolName := "nope", content := "", success := false
        error := some "Tool \x27nope\x27 not found" }
    ∧ callTool demoHandlers "boom" (.obj []) "t1" =
      { toolCallId := "t1", toolName := "boom", content := "", success := false
        error := some "division by zero" }
    ∧ callTool demoHandlers "dict_tool" (.obj []) "t2" =
      { toolCallId := "t2", toolName := "dict_tool"
        content := jsonDumps (.obj [("a", .num "1")]), success := true
        error := none }
    ∧ callTool demoHandlers "str_tool" (.obj []) "t3" =
      { toolCallId := "t3", toolName := "str_tool", content := "42"
        success := true, error := none } :=
  ⟨(c4_call_tool_containment demoHandlers "nope" [] "t0").1 rfl,
   (c4_call_tool_containment demoHandlers "boom" [] "t1").2.1
     (fun _ => .error "division by zero") "division by zero" rfl rfl,
   (c4_call_tool_containment demoHandlers "dict_tool" [] "t2").2.2.1
     (fun _ => .ok (.dict [("a", .num "1")])) [("a", .num "1")] rfl rfl,
   (c4_call_tool_containment demoHandlers "str_tool" [] "t3").2.2.2
     (fun _ => .ok (.other "42")) "42" rfl rfl⟩

/-- C9: factory resolution is case-insensitive: `register` stores under
the lower-cased name, `create` resolves the lower-cased name (so two
spellings with the same lower-casing are interchangeable), and `create`
errors exactly when the lower-cased name is unregistered. -/
theorem c9_factory_case_insensitive :
    (∀ reg t cls, (agentFactoryRegister reg t cls).lookup (pyLower t) = some cls)
    ∧ (∀ reg s cls, reg.lookup (pyLower s) = some cls →
        agentFactoryCreate reg s = .ok cls)
    ∧ (∀ reg s, reg.lookup (pyLower s) = none →
        ∃ msg, agentFactoryCreate reg s = .error msg)
    ∧ (∀ reg s₁ s₂ cls, pyLower s₁ = pyLower s₂ →
        (agentFactoryCreate reg s₁ = .ok cls ↔ agentFactoryCreate reg s₂ = .ok cls)) := by
  refine ⟨fun reg t cls => lookup_dictSet _ _ _, fun reg s cls h => ?_,
    fun reg s h => ?_, fun reg s₁ s₂ cls h => ?_⟩
  · simp [agentFactoryCreate, h]
  · exact ⟨"Unsupported agent type: " ++ s ++ ". Supported types: "
        ++ pyListReprKeys reg, by simp [agentFactoryCreate, h]⟩
  · unfold agentFactoryCreate
    rw [h]
    cases (reg.lookup (pyLower s₂)) <;> simp

/-- C9 witness: registering under `"MyAgent"` resolves under `"MYAGENT"`;
the stock `"ReAct"` spelling resolves to the ReAct class; an unknown name
errors. -/
theorem c9_factory_case_insensitive_witness :
    agentFactoryCreate
        (agentFactoryRegister agentFactoryDefault "MyAgent" (.customClass "x"))
        "MYAGENT" = .ok (.customClass "x")
    ∧ agentFactoryCreate agentFactoryDefault "ReAct" = .ok .reactClass
    ∧ ∃ msg, agentFactoryCreate agentFactoryDefault "future_agent" = .error msg :=
  ⟨c9_factory_case_insensitive.2.1 _ "MYAGENT" _ (by decide),
   c9_factory_case_insensitive.2.1 _ "ReAct" _ (by decide),
   c9_factory_case_insensitive.2.2.1 _ "future_agent" (by decide)⟩

/-- C5: on a response that neither carries a parseable fenced JSON block
nor parses as whole-content JSON, every loop parser returns its total
fallback (no exception): ReAct returns the final-answer decision with the
raw content as answer, Plan-and-Execute execution parsing returns the
complete decision with the raw content as result, and Agentic-RAG
returns the answer decision with the raw content as answer. -/
theorem c5_malformed_output_degrades (content : String)
    (hfence : ∀ g, fencedBlock content = some g → jsonLoads (pyStrip g) = none)
    (hwhole : jsonLoads (pyStrip content) = none) :
    reactParseResponse content =
      .obj [("thought", .str "Providing direct response"),
            ("action", .str "final_answer"),
            ("action_input", .obj [("answer", .str content)])]
    ∧ peParseExecutionResponse content =
      .obj [("action", .str "complete"), ("result", .str content)]
    ∧ ragParseResponse content =
      .obj [("action", .str "answer"), ("answer", .str content),
            ("sources", .arr [])] := by
  refine ⟨?_, ?_, ?_⟩
  · cases hf : fencedBlock content with
    | none => simp [reactParseResponse, hf, hwhole]
    | some g => simp [reactParseResponse, hf, hfence g hf, hwhole]
  · cases hf : fencedBlock content with
    | none => simp [peParseExecutionResponse, hf, hwhole]
    | some g => simp [peParseExecutionResponse, hf, hfence g hf]
  · cases hf : fencedBlock content with
    | none => simp [ragParseResponse, hf, hwhole]
    | some g => simp [ragParseResponse, hf, hfence g hf, hwhole]

/-- C5 witness: a plain prose response takes the fallback in all three
parsers. -/
theorem c5_malformed_output_degrades_witness :
    reactParseResponse "This is plain prose, not JSON." =
      .obj [("thought", .str "Providing direct response"),
            ("action", .str "final_answer"),
            ("action_input",
              .obj [("answer", .str "This is plain prose, not JSON.")])]
    ∧ peParseExecutionResponse "This is plain prose, not JSON." =
      .obj [("action", .str "complete"),
            ("result", .str "This is plain prose, not JSON.")]
    ∧ ragParseResponse "This is plain prose, not JSON." =
      .obj [("action", .str "answer"),
            ("answer", .str "This is plain prose, not JSON."),
            ("sources", .arr [])] :=
  c5_malformed_output_degrades "This is plain prose, not JSON."
    (fun g h => by
      rw [show fencedBlock "This is plain prose, not JSON." = none from rfl] at h
      exact Option.noConfusion h)
    rfl

theorem lookup_applyFragment (tc : ToolCallFragment) :
    ∀ (buf : List (Nat × BufEntry)) (e : BufEntry),
      buf.lookup tc.index = some e →
      (applyFragment tc buf).lookup tc.index =
        some { id := tc.id.getD e.id, name := tc.name.getD e.name,
               arguments := e.arguments ++ tc.arguments.getD "" } := by
  intro buf
  induction buf with
  | nil => intro e h; simp [List.lookup] at h
  | cons p rest ih =>
    intro e h
    obtain ⟨k, v⟩ := p
    by_cases hk : k = tc.index
    · subst hk
      simp only [List.lookup, beq_self_eq_true] at h
      injection h with h
      subst h
      simp [applyFragment, List.lookup]
    · have hb : (tc.index == k) = false := by
        simp [beq_iff_eq]; exact fun hh => hk hh.symm
      simp only [List.lookup, hb] at h
      simp only [applyFragment, if_neg hk, List.lookup, hb]
      exact ih e h

theorem lookup_updateBuffer (tc : ToolCallFragment)
    (buf : List (Nat × BufEntry)) (e : BufEntry)
    (h : buf.lookup tc.index = some e) :
    (updateBuffer buf tc).lookup tc.index =
      some { id := tc.id.getD e.id, name := tc.name.getD e.name,
             arguments := e.arguments ++ tc.arguments.getD "" } := by
  unfold updateBuffer
  simp only [h, Option.isNone_some, Bool.false_eq_true, if_false]
  exact lookup_applyFragment tc buf e h

/-- C3: the OpenAI streaming adapter accumulates tool-call fragments in a
buffer keyed by the provider index, concatenating each fragment's
arguments onto the entry of that index (first conjunct, for any buffer
state and fragment); feeding three chunks at index 0 with argument
fragments `{"a":`, `1`, `}` and a final `finish_reason="tool_calls"`
yields exactly one accumulated tool call with arguments `{"a":1}` (second
conjunct). -/
theorem c3_stream_toolcall_accumulation :
    (∀ (buf : List (Nat × BufEntry)) (tc : ToolCallFragment) (e : BufEntry),
        buf.lookup tc.index = some e →
        (updateBuffer buf tc).lookup tc.index =
          some { id := tc.id.getD e.id, name := tc.name.getD e.name,
                 arguments := e.arguments ++ tc.arguments.getD "" })
    ∧ openaiChatStream []
        [.chunk [⟨"", none, [⟨0, some "call_1", some "f", some "\x7b\x22a\x22:"⟩]⟩,],
         .chunk [⟨"", none, [⟨0, none, none, some "1"⟩]⟩],
         .chunk [⟨"", some "tool_calls", [⟨0, none, none, some "\x7d"⟩]⟩],
         .done] =
      [⟨"", none, none, false⟩,
       ⟨"", none, none, false⟩,
       ⟨"", some "tool_calls", some [⟨"call_1", "f", "\x7b\x22a\x22:1\x7d"⟩], true⟩,
       ⟨"", none, none, true⟩] :=
  ⟨fun buf tc e h => lookup_updateBuffer tc buf e h, by rfl⟩

/-- C3 witness: the accumulation conjunct at a concrete buffer holding an
entry for index 0 and a fragment carrying a further argument piece. -/
theorem c3_stream_toolcall_accumulation_witness :
    (updateBuffer [(0, { id := "c", name := "f", arguments := "x" })]
        { index := 0, arguments := some "y" }).lookup 0 =
      some { id := "c", name := "f", arguments := "xy" } :=
  c3_stream_toolcall_accumulation.1
    [(0, { id := "c", name := "f", arguments := "x" })]
    { index := 0, arguments := some "y" }
    { id := "c", name := "f", arguments := "x" } rfl

theorem runLoop_none (th r : String) :
    ∀ (steps : List ProcStep) (ending : ProcEnding) (t : Nat),
      runLoop th r none steps ending t =
        (procEmits steps ++
          (match ending with
           | .normal => [.runFinished th r (.obj [("status", .str "completed")])]
           | .raises m => [.runError m "AGENT_ERROR"]),
         match ending with
         | .normal => none
         | .raises m => some m) := by
  intro steps
  induction steps with
  | nil => intro ending t; cases ending <;> simp [runLoop, procEmits]
  | cons s rest ih =>
    intro ending t
    cases s with
    | emit e => simp [runLoop, cancelledAt, procEmits, ih]
    | checkCancel => simp [runLoop, cancelledAt, procEmits, ih]

theorem runLoop_raised (th r : String) (cancelAt : Option Nat) :
    ∀ (steps : List ProcStep) (ending : ProcEnding) (t : Nat) (exc : String),
      (runLoop th r cancelAt steps ending t).2 = some exc →
      ending = .raises exc ∧
      (runLoop th r cancelAt steps ending t).1.getLast? =
        some (.runError exc "AGENT_ERROR") := by
  intro steps
  induction steps with
  | nil =>
    intro ending t exc h
    cases ending with
    | normal => simp [runLoop] at h
    | raises m =>
      simp only [runLoop] at h
      injection h with h
      subst h
      exact ⟨rfl, by simp [runLoop]⟩
  | cons s rest ih =>
    intro ending t exc h
    cases s with
    | emit e =>
      cases hcv : cancelledAt cancelAt t with
      | true => rw [runLoop] at h; simp [hcv] at h
      | false =>
        rcases hE : runLoop th r cancelAt rest ending (t + 1) with ⟨es, ex⟩
        have hred : runLoop th r cancelAt (.emit e :: rest) ending t =
            (e :: es, ex) := by
          rw [runLoop]
          simp only [hcv, Bool.false_eq_true, if_false, hE]
        rw [hred] at h ⊢
        obtain ⟨h1, h2⟩ := ih ending (t + 1) exc (by rw [hE]; exact h)
        rw [hE] at h2
        exact ⟨h1, getLast?_cons_of_some _ _ _ h2⟩
    | checkCancel =>
      cases hcv : cancelledAt cancelAt t with
      | true => rw [runLoop] at h; simp [hcv] at h
      | false =>
        have hred : runLoop th r cancelAt (.checkCancel :: rest) ending t =
            runLoop th r cancelAt rest ending t := by
          rw [runLoop]
          simp only [hcv, Bool.false_eq_true, if_false]
        rw [hred] at h ⊢
        exact ih ending t exc h

/-- C6: when the processing generator raises and the run is not cancelled,
`run()` yields `RUN_STARTED`, the generator's events, and then
`RUN_ERROR{AGENT_ERROR, str(e)}` as the final event, re-raising the same
exception (first conjunct, an exact description of the stream — in
particular no `RUN_FINISHED` is emitted); and whenever `run()` re-raises,
the generator raised that same exception and the last event is the
`AGENT_ERROR` run error, so this is the only case in which an exception
propagates past the boundary (second conjunct). -/
theorem c6_agent_error_reraise :
    (∀ th r steps msg,
      runAgent th r none steps (.raises msg) =
        (AgentEvent.runStarted th r ::
          (procEmits steps ++ [.runError msg "AGENT_ERROR"]), some msg))
    ∧ (∀ th r cancelAt steps ending exc,
        (runAgent th r cancelAt steps ending).2 = some exc →
        ending = .raises exc ∧
        (runAgent th r cancelAt steps ending).1.getLast? =
          some (.runError exc "AGENT_ERROR")) := by
  constructor
  · intro th r steps msg
    unfold runAgent
    rw [runLoop_none th r steps (.raises msg) 1]
  · intro th r cancelAt steps ending exc h
    rcases hE : runLoop th r cancelAt steps ending 1 with ⟨es, ex⟩
    have hred : runAgent th r cancelAt steps ending =
        (AgentEvent.runStarted th r :: es, ex) := by
      unfold runAgent
      rw [hE]
    rw [hred] at h ⊢
    obtain ⟨h1, h2⟩ := runLoop_raised th r cancelAt steps ending 1 exc
      (by rw [hE]; exact h)
    rw [hE] at h2
    exact ⟨h1, getLast?_cons_of_some _ _ _ h2⟩

/-- C6 witness: a generator that emits one step event and raises `oops`;
the run re-raises `oops` and ends with the `AGENT_ERROR` event. -/
theorem c6_agent_error_reraise_witness :
    ProcEnding.raises "oops" = ProcEnding.raises "oops"
    ∧ (runAgent "t" "r" none [.emit demoEvent] (.raises "oops")).1.getLast? =
        some (.runError "oops" "AGENT_ERROR") :=
  c6_agent_error_reraise.2 "t" "r" none [.emit demoEvent] (.raises "oops")
    "oops" rfl

/-- C1 counterexample: the claim that no `RUN_FINISHED` can follow
cancellation is false on the code.  With cancellation set after 2 events
(`RUN_STARTED` and one content event) and a processing generator whose
next action is its own cancellation check (`if context.is_cancelled():
return` at the top of every loop), the generator returns, the `async for`
in `run()` ends normally, and `run()` yields `RUN_FINISHED` — after
cancellation, with no `RUN_ERROR{RUN_CANCELLED}`. -/
theorem c1_cancellation_counterexample :
    runAgent "t" "r" (some 2) [.emit demoEvent, .checkCancel] .normal =
      ([.runStarted "t" "r", demoEvent,
        .runFinished "t" "r" (.obj [("status", .str "completed")])], none) := rfl

theorem runLoop_after_cancel (th r : String) (N : Nat) :
    ∀ (steps : List ProcStep) (ending : ProcEnding) (t : Nat),
      (runLoop th r (some N) steps ending t).1.length ≤ N - t + 1
      ∧ ∀ i e, N - t ≤ i →
          (runLoop th r (some N) steps ending t).1.get? i = some e →
          e = .runError "Run cancelled by user" "RUN_CANCELLED"
          ∨ (∃ res, e = .runFinished th r res)
          ∨ ∃ m, e = .runError m "AGENT_ERROR" := by
  intro steps
  induction steps with
  | nil =>
    intro ending t
    cases ending with
    | normal =>
      refine ⟨by simp [runLoop], fun i e _ hget => ?_⟩
      simp only [runLoop] at hget
      cases i with
      | zero =>
        simp at hget
        exact Or.inr (Or.inl ⟨_, hget.symm⟩)
      | succ j => simp at hget
    | raises m =>
      refine ⟨by simp [runLoop], fun i e _ hget => ?_⟩
      simp only [runLoop] at hget
      cases i with
      | zero =>
        simp at hget
        exact Or.inr (Or.inr ⟨m, hget.symm⟩)
      | succ j => simp at hget
  | cons s rest ih =>
    intro ending t
    cases s with
    | emit e =>
      cases hcv : cancelledAt (some N) t with
      | true =>
        have hred : runLoop th r (some N) (.emit e :: rest) ending t =
            ([.runError "Run cancelled by user" "RUN_CANCELLED"], none) := by
          rw [runLoop, hcv]; simp
        rw [hred]
        refine ⟨by simp, fun i ev _ hget => ?_⟩
        cases i with
        | zero => simp at hget; exact Or.inl hget.symm
        | succ j => simp at hget
      | false =>
        have ht : t < N := by
          simp [cancelledAt] at hcv
          omega
        rcases hE : runLoop th r (some N) rest ending (t + 1) with ⟨es, ex⟩
        have hred : runLoop th r (some N) (.emit e :: rest) ending t =
            (e :: es, ex) := by
          rw [runLoop]
          simp only [hcv, Bool.false_eq_true, if_false, hE]
        obtain ⟨ihl, ihs⟩ := ih ending (t + 1)
        rw [hE] at ihl ihs
        dsimp only at ihl ihs
        rw [hred]
        constructor
        · simp only [List.length_cons]
          omega
        · intro i ev hNi hget
          cases i with
          | zero => omega
          | succ j =>
            simp only [List.get?_cons_succ] at hget
            exact ihs j ev (by omega) hget
    | checkCancel =>
      cases hcv : cancelledAt (some N) t with
      | true =>
        have hred : runLoop th r (some N) (.checkCancel :: rest) ending t =
            ([.runFinished th r (.obj [("status", .str "completed")])], none) := by
          rw [runLoop, hcv]; simp
        rw [hred]
        refine ⟨by simp, fun i ev _ hget => ?_⟩
        cases i with
        | zero => simp at hget; exact Or.inr (Or.inl ⟨_, hget.symm⟩)
        | succ j => simp at hget
      | false =>
        have hred : runLoop th r (some N) (.checkCancel :: rest) ending t =
            runLoop th r (some N) rest ending t := by
          rw [runLoop]
          simp only [hcv, Bool.false_eq_true, if_false]
        rw [hred]
        exact ih ending t

/-- C1 amended: once the cancellation flag is set after `N ≥ 1` events of
the run stream have been produced, no further content, tool, step or
state event is produced: at most one further event follows, and any event
at position `N` or later is terminal — `RUN_ERROR{RUN_CANCELLED}` when
the generator yields another event, `RUN_FINISHED` when the generator
returns normally (in particular when it observes the cancellation itself
and returns), or `RUN_ERROR{AGENT_ERROR}` when it raises before its next
yield.  A `RUN_FINISHED` may therefore follow a cancellation (see the
counterexample); what is guaranteed is the absence of further
content/tool/step/state events and a single terminal event. -/
theorem c1_cancellation_amended (th r : String) (N : Nat) (hN : 1 ≤ N)
    (steps : List ProcStep) (ending : ProcEnding) :
    (runAgent th r (some N) steps ending).1.length ≤ N + 1
    ∧ ∀ i e, N ≤ i →
        (runAgent th r (some N) steps ending).1.get? i = some e →
        e = .runError "Run cancelled by user" "RUN_CANCELLED"
        ∨ (∃ res, e = .runFinished th r res)
        ∨ ∃ m, e = .runError m "AGENT_ERROR" := by
  obtain ⟨hl, hs⟩ := runLoop_after_cancel th r N steps ending 1
  rcases hE : runLoop th r (some N) steps ending 1 with ⟨es, ex⟩
  rw [hE] at hl hs
  dsimp only at hl hs
  have hred : runAgent th r (some N) steps ending =
      (AgentEvent.runStarted th r :: es, ex) := by
    unfold runAgent
    rw [hE]
  rw [hred]
  constructor
  · simp only [List.length_cons]
    omega
  · intro i e hNi hget
    cases i with
    | zero => omega
    | succ j =>
      simp only [List.get?_cons_succ] at hget
      exact hs j e (by omega) hget

/-- C1 witness for the amended statement, at the counterexample's
concrete run. -/
theorem c1_cancellation_amended_witness :
    (runAgent "t" "r" (some 2) [.emit demoEvent, .checkCancel] .normal).1.length
        ≤ 2 + 1
    ∧ ∀ i e, 2 ≤ i →
        (runAgent "t" "r" (some 2)
            [.emit demoEvent, .checkCancel] .normal).1.get? i = some e →
        e = .runError "Run cancelled by user" "RUN_CANCELLED"
        ∨ (∃ res, e = .runFinished "t" "r" res)
        ∨ ∃ m, e = .runError m "AGENT_ERROR" :=
  c1_cancellation_amended "t" "r" 2 (by decide) [.emit demoEvent, .checkCancel]
    .normal


theorem countP_map_zero {α : Type} (p : AgentEvent → Bool) (f : α → AgentEvent)
    (hf : ∀ x, p (f x) = false) (l : List α) : (l.map f).countP p = 0 := by
  rw [List.countP_eq_zero]
  intro a ha
  obtain ⟨x, _, rfl⟩ := List.mem_map.mp ha
  simp [hf]

theorem emitChunks_false (mk : String → AgentEvent) (n : Nat) (s : String) :
    emitChunksEvents false mk n s = ((pyChunksStr n s).map mk, true) := by
  unfold emitChunksEvents
  by_cases h : s.toList.isEmpty
  · have h0 : s.toList = [] := by
      cases hs : s.toList with
      | nil => rfl
      | cons a l => rw [hs] at h; simp at h
    rw [if_pos h]
    unfold pyChunksStr
    rw [h0]
    rfl
  · rw [if_neg h]
    rfl

theorem chunksAux_flatten {α : Type} (n : Nat) :
    ∀ (l acc : List α) (k : Nat),
      (chunksAux n l acc k).flatten = acc.reverse ++ l := by
  intro l
  induction l with
  | nil => intro acc k; simp [chunksAux]
  | cons x xs ih =>
    intro acc k
    cases k with
    | zero => simp [chunksAux, ih]
    | succ k => simp [chunksAux, ih]

theorem chunksOf_flatten {α : Type} (n : Nat) (l : List α) :
    (chunksOf n l).flatten = l := by
  cases l with
  | nil => rfl
  | cons x xs => simp [chunksOf, chunksAux_flatten]

theorem mk_append (a b : List Char) :
    String.mk a ++ String.mk b = String.mk (a ++ b) := rfl

theorem pyJoin_map_mk :
    ∀ (ls : List (List Char)),
      pyJoin "" (ls.map String.mk) = String.mk ls.flatten := by
  intro ls
  induction ls with
  | nil => rfl
  | cons x rest ih =>
    cases rest with
    | nil => simp [pyJoin]
    | cons y t =>
      show String.mk x ++ "" ++ pyJoin "" ((y :: t).map String.mk) = _
      rw [ih]
      show String.mk x ++ String.mk [] ++ String.mk ((y :: t).flatten) = _
      rw [mk_append, mk_append]
      simp [List.flatten]

theorem pyChunksStr_join (n : Nat) (s : String) :
    pyJoin "" (pyChunksStr n s) = s := by
  unfold pyChunksStr
  rw [pyJoin_map_mk, chunksOf_flatten]
  rfl

theorem countP_thinkingEvents (chunks : List String) :
    (thinkingEvents "thinking" chunks).countP (·.isStepStartedNamed "thinking") = 1 := by
  simp only [thinkingEvents]
  rw [List.countP_append, List.countP_cons]
  rw [countP_map_zero (·.isStepStartedNamed "thinking")
    (AgentEvent.stepContent "thinking") (fun x => rfl)]
  simp [AgentEvent.isStepStartedNamed]

theorem countP_think_stepContent (sn : String) (l : List String) :
    (l.map (AgentEvent.stepContent sn)).countP (·.isStepStartedNamed "thinking") = 0 :=
  countP_map_zero _ _ (fun _ => rfl) l

theorem countP_think_textContent (fid : String) (l : List String) :
    (l.map (AgentEvent.textMessageContent fid)).countP
      (·.isStepStartedNamed "thinking") = 0 :=
  countP_map_zero _ _ (fun _ => rfl) l

theorem countP_emitChunks (p : AgentEvent → Bool) (mk : String → AgentEvent)
    (hmk : ∀ x, p (mk x) = false) (cancelled : Bool) (n : Nat) (s : String) :
    (emitChunksEvents cancelled mk n s).1.countP p = 0 := by
  unfold emitChunksEvents
  by_cases h1 : s.toList.isEmpty
  · rw [if_pos h1]
    rfl
  · rw [if_neg h1]
    cases cancelled with
    | true => rfl
    | false => exact countP_map_zero p mk hmk (pyChunksStr n s)

theorem reactLoop_think_le (llm : LLMOracle)
    (handlers : String → Option ToolHandler) (tools : List ToolDef)
    (uuid : IdSupply) :
    ∀ (r : Nat) (hist : List LLMMessage) (ctr : Nat),
      ((reactLoop llm handlers tools uuid false r hist ctr).events.countP
        (·.isStepStartedNamed "thinking")) ≤ r := by
  intro r
  induction r with
  | zero =>
    intro hist ctr
    simp only [reactLoop, emitChunks_false]
    try simp only [List.countP_append, List.countP_cons, countP_think_textContent]
    try simp [AgentEvent.isStepStartedNamed]
    try omega
  | succ n ih =>
    intro hist ctr
    simp only [reactLoop, emitChunks_false]
    repeat' split
    all_goals
      try simp only [List.countP_append, List.countP_cons, countP_thinkingEvents,
        countP_think_textContent, countP_think_stepContent]
    all_goals
      try simp [AgentEvent.isStepStartedNamed]
    all_goals try omega
    all_goals
      first
      | exact Nat.add_le_add_right (ih _ _) 1
      | exact le_trans (Nat.add_le_add_left (ih _ _) 1) (by omega)
      | exact Nat.succ_le_succ (ih _ _)

theorem noRunError_map {α : Type} (f : α → AgentEvent)
    (hf : ∀ x, (f x).isRunError = false) (l : List α) :
    ∀ e ∈ l.map f, e.isRunError = false := by
  intro e he
  obtain ⟨x, _, rfl⟩ := List.mem_map.mp he
  exact hf x

theorem noRunError_thinking (s : String) (chunks : List String) :
    ∀ e ∈ thinkingEvents s chunks, e.isRunError = false := by
  intro e he
  unfold thinkingEvents at he
  rcases List.mem_append.mp he with h | h
  · rcases List.mem_cons.mp h with rfl | h
    · rfl
    · exact noRunError_map (AgentEvent.stepContent s) (fun _ => rfl) _ e h
  · rcases List.mem_cons.mp h with rfl | h
    · rfl
    · cases h

theorem reactLoop_nonfinal (llm : LLMOracle)
    (handlers : String → Option ToolHandler) (tools : List ToolDef)
    (uuid : IdSupply)
    (htame : ∀ msgs, ∃ kvs a,
        reactParseResponse (pyJoin "" (llm msgs)) = .obj kvs
        ∧ jsonGet kvs "action" = some (.str a) ∧ a ≠ "final_answer") :
    ∀ (r : Nat) (hist : List LLMMessage) (ctr : Nat),
      ∃ pre c fid,
        (reactLoop llm handlers tools uuid false r hist ctr).events =
          pre ++ ([.stepStarted "final", .textMessageStart fid "assistant"]
            ++ (pyChunksStr 9 (reactFallbackText c)).map
                (AgentEvent.textMessageContent fid)
            ++ [.textMessageEnd fid, .stepFinished "final"])
        ∧ (reactLoop llm handlers tools uuid false r hist ctr).outcome = .finished
        ∧ ((reactLoop llm handlers tools uuid false r hist ctr).events.countP
            (·.isStepStartedNamed "thinking")) = r
        ∧ ∀ e ∈ (reactLoop llm handlers tools uuid false r hist ctr).events,
            e.isRunError = false := by
  intro r
  induction r with
  | zero =>
    intro hist ctr
    refine ⟨[], (match hist.getLast? with
        | some m => m.content
        | none => "Unable to provide a conclusion."), uuid ctr, ?_, ?_, ?_, ?_⟩
    · simp [reactLoop, emitChunks_false]
    · simp [reactLoop, emitChunks_false]
    · simp only [reactLoop, emitChunks_false, eq_self_iff_true, if_true]
      simp only [List.countP_append, List.countP_cons, countP_think_textContent]
      simp [AgentEvent.isStepStartedNamed]
    · simp only [reactLoop, emitChunks_false, eq_self_iff_true, if_true]
      intro e he
      rcases List.mem_append.mp he with h | h
      · rcases List.mem_append.mp h with h | h
        · rcases List.mem_cons.mp h with rfl | h
          · rfl
          · rcases List.mem_cons.mp h with rfl | h
            · rfl
            · cases h
        · exact noRunError_map (AgentEvent.textMessageContent (uuid ctr))
            (fun _ => rfl) _ e h
      · rcases List.mem_cons.mp h with rfl | h
        · rfl
        · rcases List.mem_cons.mp h with rfl | h
          · rfl
          · cases h
  | succ n ih =>
    intro hist ctr
    obtain ⟨kvs, a, hparse, haction, hne⟩ :=
      htame ((⟨MessageRole.system, reactBuildSystemPrompt tools hist, none,
        none⟩ : LLMMessage) :: hist)
    have hEq : jsonEqStr (Json.str a) "final_answer" = false := by
      simp [jsonEqStr, hne]
    simp only [reactLoop, hparse, haction, Option.getD_some, hEq,
      Bool.false_eq_true, if_false, false_and, List.isEmpty_eq_true]
    set msgs0 : List LLMMessage :=
      (⟨MessageRole.system, reactBuildSystemPrompt tools hist, none,
        none⟩ : LLMMessage) :: hist with hmsgs0
    set res : ToolResult :=
      callTool handlers a ((jsonGet kvs "action_input").getD (Json.obj []))
        (uuid ctr) with hres
    set obs : String :=
      (if res.success = true then res.content
       else "Error: " ++ res.error.getD "") with hobs
    obtain ⟨pre', c', fid', h1, h2, h3, h4⟩ :=
      ih (hist ++ [⟨MessageRole.assistant, pyJoin "" (llm msgs0), none, none⟩]
          ++ [⟨MessageRole.user, "Observation: " ++ obs, none, none⟩]) (ctr + 2)
    refine ⟨thinkingEvents "thinking" (llm msgs0)
        ++ [.stepStarted "action", .toolCallStart (uuid ctr) a none,
            .toolCallArgs (uuid ctr)
              (jsonDumps ((jsonGet kvs "action_input").getD (Json.obj []))),
            .toolCallEnd (uuid ctr),
            .toolCallResult (uuid (ctr + 1)) (uuid ctr) obs,
            .stepFinished "action"] ++ pre', c', fid', ?_, ?_, ?_, ?_⟩
    · rw [h1]
      simp [List.append_assoc]
    · exact h2
    · rw [List.countP_append, List.countP_append, countP_thinkingEvents, h3]
      simp [List.countP_cons, AgentEvent.isStepStartedNamed]
      omega
    · intro e he
      rcases List.mem_append.mp he with h | h
      · rcases List.mem_append.mp h with h | h
        · exact noRunError_thinking _ _ e h
        · rcases List.mem_cons.mp h with rfl | h
          · rfl
          · rcases List.mem_cons.mp h with rfl | h
            · rfl
            · rcases List.mem_cons.mp h with rfl | h
              · rfl
              · rcases List.mem_cons.mp h with rfl | h
                · rfl
                · rcases List.mem_cons.mp h with rfl | h
                  · rfl
                  · rcases List.mem_cons.mp h with rfl | h
                    · rfl
                    · cases h
      · exact h4 e h

/-- C7: the ReAct loop performs at most `max_iterations` thinking
iterations for any model and tool behavior (second conjunct; the default
configuration sets the bound to 10, first conjunct).  When the model
never returns a `final_answer` action (hypothesis `htame`), the loop runs
exactly `max_iterations` thinking iterations, terminates normally with no
`RUN_ERROR` event, and its final text message streams the fallback answer
`reactFallbackText c` built from the content `c` of the last history
entry (the last observation), whose chunked deltas concatenate back to
the full fallback text. -/
theorem c7_react_max_iterations (llm : LLMOracle)
    (handlers : String → Option ToolHandler) (tools : List ToolDef)
    (cfg : AgentConfig) (uuid : IdSupply) (message : String)
    (hist : List LLMMessage)
    (htame : ∀ msgs, ∃ kvs a,
        reactParseResponse (pyJoin "" (llm msgs)) = .obj kvs
        ∧ jsonGet kvs "action" = some (.str a) ∧ a ≠ "final_answer") :
    agentConfigDefault.maxIterations = 10
    ∧ (∀ (llm' : LLMOracle) (handlers' : String → Option ToolHandler)
        (tools' : List ToolDef) (uuid' : IdSupply) (message' : String)
        (hist' : List LLMMessage),
        ((reactProcess llm' handlers' tools' cfg uuid' false message'
            hist').events.countP (·.isStepStartedNamed "thinking"))
          ≤ cfg.maxIterations)
    ∧ ((reactProcess llm handlers tools cfg uuid false message hist).events.countP
        (·.isStepStartedNamed "thinking")) = cfg.maxIterations
    ∧ (reactProcess llm handlers tools cfg uuid false message hist).outcome
        = .finished
    ∧ (∀ e ∈ (reactProcess llm handlers tools cfg uuid false message hist).events,
        e.isRunError = false)
    ∧ ∃ pre c fid,
        (reactProcess llm handlers tools cfg uuid false message hist).events =
          pre ++ ([.stepStarted "final", .textMessageStart fid "assistant"]
            ++ (pyChunksStr 9 (reactFallbackText c)).map
                (AgentEvent.textMessageContent fid)
            ++ [.textMessageEnd fid, .stepFinished "final"])
        ∧ pyJoin "" (pyChunksStr 9 (reactFallbackText c)) = reactFallbackText c := by
  obtain ⟨pre, c, fid, h1, h2, h3, h4⟩ :=
    reactLoop_nonfinal llm handlers tools uuid htame cfg.maxIterations
      (hist ++ [⟨MessageRole.user, message, none, none⟩]) 0
  exact ⟨rfl,
    fun llm' handlers' tools' uuid' message' hist' =>
      reactLoop_think_le llm' handlers' tools' uuid' cfg.maxIterations _ 0,
    h3, h2, h4, pre, c, fid, h1, pyChunksStr_join 9 _⟩

/-- C7 witness: `max_iterations = 2` with a model that always requests
the `echo` tool — exactly two thinking iterations and a normal finish. -/
theorem c7_react_max_iterations_witness :
    ((reactProcess echoLlm echoHandlers [] ⟨2⟩ wUuid false "hi"
        []).events.countP (·.isStepStartedNamed "thinking")) = 2
    ∧ (reactProcess echoLlm echoHandlers [] ⟨2⟩ wUuid false "hi" []).outcome
        = .finished :=
  ⟨(c7_react_max_iterations echoLlm echoHandlers [] ⟨2⟩ wUuid "hi" []
      (fun _ => ⟨[("action", Json.str "echo"),
          ("action_input", Json.obj [("text", Json.str "hi")])], "echo",
        rfl, rfl, by decide⟩)).2.2.1,
   (c7_react_max_iterations echoLlm echoHandlers [] ⟨2⟩ wUuid "hi" []
      (fun _ => ⟨[("action", Json.str "echo"),
          ("action_input", Json.obj [("text", Json.str "hi")])], "echo",
        rfl, rfl, by decide⟩)).2.2.2.1⟩

/-- C10: a successfully parsed plan with an empty task list is
immediately complete (`is_complete` of an empty task list is true, first
conjunct), the execution loop exits at once without running its body or
yielding any event (second conjunct), and the run proceeds to synthesis,
finishing with the final `STATE_SNAPSHOT` whose `status` is
`"completed"` as its last event; the only steps started are `planning`
and `synthesis`. -/
theorem c10_empty_plan_completes (llm : LLMOracle)
    (handlers : String → Option ToolHandler) (tools : List ToolDef)
    (cfg : PlanExecuteConfig) (uuid freshIds : IdSupply) (message : String)
    (hist₀ : List LLMMessage) (goal : String)
    (hplan : peParsePlan freshIds cfg.maxTasksPerPlan
        (pyJoin "" (llm ((⟨MessageRole.system,
            peBuildPlanningPrompt tools cfg.maxTasksPerPlan, none,
            none⟩ : LLMMessage)
          :: pyLastN 10 hist₀ ++ [⟨MessageRole.user, message, none, none⟩]))) =
      .ok ⟨goal, [], 0, 0⟩) :
    planIsComplete ⟨goal, [], 0, 0⟩ = true
    ∧ (∀ (f ctr : Nat),
        peExecPhase llm handlers tools cfg uuid false
          (hist₀ ++ [⟨MessageRole.user, message, none, none⟩]) (f + 1)
          ⟨goal, [], 0, 0⟩ ctr = ⟨[], ctr, ⟨goal, [], 0, 0⟩, false, false, .finished⟩)
    ∧ (peProcess llm handlers tools cfg uuid freshIds false message
        hist₀).outcome = .finished
    ∧ (peProcess llm handlers tools cfg uuid freshIds false message
        hist₀).events.getLast? =
      some (.stateSnapshot (.obj [("plan", planToDict ⟨goal, [], 0, 0⟩),
        ("status", .str "completed")]))
    ∧ AgentEvent.stepStarted "synthesis" ∈
        (peProcess llm handlers tools cfg uuid freshIds false message
          hist₀).events
    ∧ ∀ name, AgentEvent.stepStarted name ∈
        (peProcess llm handlers tools cfg uuid freshIds false message
          hist₀).events →
        name = "planning" ∨ name = "synthesis" := by
  have hex : peExecPhase llm handlers tools cfg uuid false
      (hist₀ ++ [⟨MessageRole.user, message, none, none⟩])
      (([] : List PlanTask).length + 1) ⟨goal, [], 0, 0⟩ 0 =
    ⟨[], 0, ⟨goal, [], 0, 0⟩, false, false, .finished⟩ := rfl
  refine ⟨rfl, fun f ctr => rfl, ?_, ?_, ?_, ?_⟩
  all_goals simp only [peProcess, hplan, hex, Bool.false_eq_true, false_and,
    if_false, not_true, ite_false]
  · rw [List.getLast?_append_of_ne_nil _ (by simp)]
    rfl
  · simp
  · intro name h
    simp only [List.mem_append, List.mem_cons, List.mem_map,
      List.mem_singleton] at h
    rcases h with ⟨⟨⟨⟨h | ⟨x, _, h⟩, h⟩ | h⟩ | h⟩ | h⟩ | h
    all_goals try simp at h
    all_goals tauto

/-- C10 witness: a model that answers the planning prompt with
`\x7b"goal": "g", "tasks": []\x7d` drives the run straight through an
empty execution phase into synthesis and a completed snapshot. -/
theorem c10_empty_plan_completes_witness :
    planIsComplete ⟨"g", [], 0, 0⟩ = true
    ∧ (peProcess emptyPlanLlm noHandlers [] ⟨10, 3, 2, true, 10⟩ wUuid wUuid
        false "q" []).outcome = .finished
    ∧ AgentEvent.stepStarted "synthesis" ∈
        (peProcess emptyPlanLlm noHandlers [] ⟨10, 3, 2, true, 10⟩ wUuid wUuid
          false "q" []).events :=
  ⟨(c10_empty_plan_completes emptyPlanLlm noHandlers [] ⟨10, 3, 2, true, 10⟩
      wUuid wUuid "q" [] "g" rfl).1,
   (c10_empty_plan_completes emptyPlanLlm noHandlers [] ⟨10, 3, 2, true, 10⟩
      wUuid wUuid "q" [] "g" rfl).2.2.1,
   (c10_empty_plan_completes emptyPlanLlm noHandlers [] ⟨10, 3, 2, true, 10⟩
      wUuid wUuid "q" [] "g" rfl).2.2.2.2.1⟩

theorem append_ne_nil_str (x t : String) (hx : ¬ x.toList = []) :
    ¬ (x ++ t = "") := by
  intro h
  have h2 : (x ++ t).toList = ("" : String).toList := congrArg String.toList h
  rw [toListAppend] at h2
  exact hx (List.append_eq_nil.mp h2).1

theorem mock_ctx_eq (selfKb : List String) (topK : Nat) (m : String) :
    formatRetrievedContext (ragRetrieve none selfKb topK m none) =
      pyJoin "\n" ["### Results from: mock", "Query: " ++ m, "",
        "[1] (Score: 0.00, Source: mock)", mockRetrievalText m, ""] := rfl

theorem ragLoop_calls_head (llm : LLMOracle) (rfunc : Option RetrievalFunc)
    (kbIds : List String) (cfg : RAGConfig) (uuid : IdSupply)
    (message : String) (r attempt ctr : Nat) (allCtx : String)
    (hist : List LLMMessage) :
    (ragLoop llm rfunc kbIds cfg uuid false message (r + 1) attempt allCtx
      hist ctr).calls.head? =
    some ((⟨MessageRole.system, ragBuildSystemPrompt kbIds hist allCtx, none,
      none⟩ : LLMMessage) :: hist) := by
  rw [ragLoop]
  simp only [Bool.false_eq_true, false_and, if_false, not_true, ite_false]
  repeat' split
  all_goals rfl

set_option maxHeartbeats 2000000 in
set_option maxRecDepth 20000 in
/-- C8 counterexample: with no retrieval function and
`always_retrieve = true` but the default empty `knowledge_base_ids`, the
run performs no retrieval step at all — the first event is the reasoning
step, no retrieval step is ever started, and no message of any model call
contains the mock retrieval text. -/
theorem c8_rag_mock_retrieval_counterexample :
    (ragProcess proseLlm none [] ⟨5, 3, true, true⟩ wUuid false "q"
        []).events.head? = some (.stepStarted "reasoning")
    ∧ ((ragProcess proseLlm none [] ⟨5, 3, true, true⟩ wUuid false "q"
          []).events.countP (fun e => e.isStepStartedNamed "retrieval")) = 0
    ∧ (ragProcess proseLlm none [] ⟨5, 3, true, true⟩ wUuid false "q"
          []).calls.map
        (fun msgs => msgs.map
          (fun m => substrB (mockRetrievalText "q") m.content)) =
      [[false, false]] := by
  refine ⟨?_, ?_, ?_⟩ <;> rfl

/-- C8 (amended): with no retrieval function, `always_retrieve = true`,
a non-empty knowledge-base list and a positive retrieval-attempt budget,
the initial retrieval returns the single mock chunk
`"[Mock retrieval] No retrieval function configured. Query: <message>"`,
the run opens with that retrieval step, the first reasoning call's
message list starts with the system prompt built from the mock context,
and the mock text occurs inside that system prompt. -/
theorem c8_rag_mock_retrieval_amended (llm : LLMOracle)
    (kbIds : List String) (cfg : RAGConfig) (uuid : IdSupply)
    (message : String) (hist : List LLMMessage)
    (hkb : ¬ kbIds.isEmpty) (halways : cfg.alwaysRetrieve = true)
    (hatt : 1 ≤ cfg.maxRetrievalAttempts) :
    ragRetrieve none kbIds cfg.topK message none =
      [⟨message, "mock", [⟨mockRetrievalText message, "mock", "0.00"⟩], 1⟩]
    ∧ (ragProcess llm none kbIds cfg uuid false message hist).events.head? =
        some (.stepStarted "retrieval")
    ∧ (ragProcess llm none kbIds cfg uuid false message hist).calls.head? =
        some ((⟨MessageRole.system,
          ragBuildSystemPrompt kbIds
            (hist ++ [⟨MessageRole.user, message, none, none⟩])
            (formatRetrievedContext
              (ragRetrieve none kbIds cfg.topK message none)), none, none⟩ :
            LLMMessage) ::
          (hist ++ [⟨MessageRole.user, message, none, none⟩]))
    ∧ SubstrP (mockRetrievalText message)
        (ragBuildSystemPrompt kbIds
          (hist ++ [⟨MessageRole.user, message, none, none⟩])
          (formatRetrievedContext
            (ragRetrieve none kbIds cfg.topK message none))) := by
  obtain ⟨r, hr⟩ : ∃ r, cfg.maxRetrievalAttempts = r + 1 :=
    ⟨cfg.maxRetrievalAttempts - 1, by omega⟩
  refine ⟨rfl, ?_, ?_, ?_⟩
  · simp only [ragProcess]
    rw [if_pos ⟨halways, hkb⟩]
    rfl
  · simp only [ragProcess]
    rw [if_pos ⟨halways, hkb⟩]
    simp only [hr]
    exact ragLoop_calls_head llm none kbIds cfg uuid message r 1 2 _ _
  · rw [mock_ctx_eq kbIds cfg.topK message]
    have hin : SubstrP (mockRetrievalText message)
        (pyJoin "\n" ["### Results from: mock", "Query: " ++ message, "",
          "[1] (Score: 0.00, Source: mock)", mockRetrievalText message,
          ""]) :=
      substr_pyJoin "\n" _ _ (by simp)
    have hne : ¬ (pyJoin "\n" ["### Results from: mock",
        "Query: " ++ message, "", "[1] (Score: 0.00, Source: mock)",
        mockRetrievalText message, ""] = "") :=
      append_ne_nil_str ("### Results from: mock" ++ "\n")
        (pyJoin "\n" ["Query: " ++ message, "",
          "[1] (Score: 0.00, Source: mock)", mockRetrievalText message,
          ""]) (by decide)
    simp only [ragBuildSystemPrompt, ragSystemPromptFmt]
    rw [if_neg hne]
    exact substr_append_right _ _ _ (substr_append_right _ _ _
      (substr_append_right _ _ _ (substr_append_left _ _ _ hin)))

/-- C8 witness: one knowledge base, `always_retrieve = true`, no
retrieval function — the run opens with the retrieval step and the mock
text is inside the next reasoning system prompt. -/
theorem c8_rag_mock_retrieval_amended_witness :
    (ragProcess proseLlm none ["kb1"] ⟨5, 3, true, true⟩ wUuid false "q"
        []).events.head? = some (.stepStarted "retrieval")
    ∧ SubstrP (mockRetrievalText "q")
        (ragBuildSystemPrompt ["kb1"]
          [⟨MessageRole.user, "q", none, none⟩]
          (formatRetrievedContext (ragRetrieve none ["kb1"] 5 "q" none))) :=
  ⟨(c8_rag_mock_retrieval_amended proseLlm ["kb1"] ⟨5, 3, true, true⟩ wUuid
      "q" [] (by decide) rfl (by decide)).2.1,
   (c8_rag_mock_retrieval_amended proseLlm ["kb1"] ⟨5, 3, true, true⟩ wUuid
      "q" [] (by decide) rfl (by decide)).2.2.2⟩

theorem peSelectAux_some (tasks : List PlanTask) :
    ∀ (rest : List PlanTask) (i j : Nat) (t : PlanTask),
      peSelectAux tasks i rest = some (j, t) →
      ∃ k, j = i + k ∧ rest.get? k = some t
        ∧ (t.status == TaskStatus.pending && depsMet tasks t) = true
        ∧ ∀ m u, m < k → rest.get? m = some u →
            (u.status == TaskStatus.pending && depsMet tasks u) = false := by
  intro rest
  induction rest with
  | nil => intro i j t h; simp [peSelectAux] at h
  | cons a l ih =>
    intro i j t h
    rw [peSelectAux] at h
    by_cases hc : (a.status == TaskStatus.pending && depsMet tasks a) = true
    · rw [if_pos hc] at h
      have h2 : i = j ∧ a = t := by simpa using h
      obtain ⟨rfl, rfl⟩ := h2
      exact ⟨0, by omega, rfl, hc, fun m u hm => absurd hm (by omega)⟩
    · rw [if_neg hc] at h
      obtain ⟨k, hk1, hk2, hk3, hk4⟩ := ih (i + 1) j t h
      refine ⟨k + 1, by omega, hk2, hk3, ?_⟩
      intro m u hm hu
      cases m with
      | zero =>
        have h3 : a = u := by simpa using hu
        subst h3
        exact Bool.eq_false_iff.mpr hc
      | succ m₀ =>
        exact hk4 m₀ u (by omega) (by simpa using hu)

theorem depsMet_iff (tasks : List PlanTask) (t : PlanTask) :
    depsMet tasks t = true ↔
      ∀ d ∈ t.dependencies, ∃ u ∈ tasks,
        u.id = d ∧ u.status = TaskStatus.completed := by
  simp [depsMet, List.all_eq_true, List.any_eq_true, Bool.and_eq_true,
    beq_iff_eq]

theorem peSelect_spec (p : Plan) (i : Nat) (t : PlanTask)
    (h : peSelect p = some (i, t)) :
    p.tasks.get? i = some t ∧ t.status = TaskStatus.pending
    ∧ depsMet p.tasks t = true
    ∧ ∀ j u, j < i → p.tasks.get? j = some u →
        ¬ (u.status = TaskStatus.pending ∧ depsMet p.tasks u = true) := by
  obtain ⟨k, hk1, hk2, hk3, hk4⟩ := peSelectAux_some p.tasks p.tasks 0 i t h
  obtain ⟨hp, hd⟩ : t.status = TaskStatus.pending ∧ depsMet p.tasks t = true :=
    by simpa using hk3
  have hkk : i = k := by omega
  subst hkk
  refine ⟨hk2, hp, hd, ?_⟩
  intro j u hj hu hcontra
  obtain ⟨h1, h2⟩ := hcontra
  have := hk4 j u hj hu
  rw [h1, h2] at this
  simp at this

theorem countP_set (q : α → Bool) (l : List α) :
    ∀ (i : Nat) (a b : α), l.get? i = some a →
      (l.set i b).countP q + (if q a then 1 else 0)
        = l.countP q + (if q b then 1 else 0) := by
  induction l with
  | nil => intro i a b h; simp at h
  | cons x xs ih =>
    intro i a b h
    cases i with
    | zero =>
      have hx : x = a := by simpa using h
      subst hx
      simp only [List.set, List.countP_cons]
      omega
    | succ n =>
      have h2 : xs.get? n = some a := by simpa using h
      have := ih n a b h2
      simp only [List.set, List.countP_cons]
      omega

theorem BlockedInv_set (p q : Plan) (S : List String) (idx : Nat)
    (task taskF : PlanTask) (hinv : BlockedInv p S)
    (hq : q.tasks = p.tasks.set idx taskF)
    (hget : p.tasks.get? idx = some task)
    (hpend : task.status = TaskStatus.pending)
    (hFid : taskF.id = task.id) (hnotin : task.id ∉ S) :
    BlockedInv q S := by
  intro t ht hts
  rw [hq] at ht
  rcases List.mem_or_eq_of_mem_set ht with hmem | rfl
  · obtain ⟨hp1, d, hd, hnever⟩ := hinv t hmem hts
    refine ⟨hp1, d, hd, ?_⟩
    intro u hu hud
    rw [hq] at hu
    rcases List.mem_or_eq_of_mem_set hu with humem | rfl
    · exact hnever u humem hud
    · exfalso
      have htaskmem : task ∈ p.tasks := List.get?_mem hget
      have hid : task.id = d := by rw [← hFid, hud]
      have := (hnever task htaskmem hid).2 hpend
      rw [← hid] at this
      exact hnotin this
  · exact absurd (hFid ▸ hts) hnotin

theorem peInnerExec_spec (llm : LLMOracle)
    (handlers : String → Option ToolHandler) (uuid : IdSupply)
    (stepName : String)
    (htame : ∀ msgs,
      tameExecResp (peParseExecutionResponse (pyJoin "" (llm msgs))) = true) :
    ∀ (budget : Nat) (task : PlanTask) (execMsgs : List LLMMessage)
      (ctr : Nat),
      InnerSpec task
        (peInnerExec llm handlers uuid false stepName budget task execMsgs
          ctr) := by
  intro budget
  induction budget with
  | zero =>
    intro task execMsgs ctr
    exact ⟨rfl, rfl, rfl, fun h => nomatch h⟩
  | succ b ih =>
    intro task execMsgs ctr
    rw [peInnerExec]
    simp only [Bool.false_eq_true, false_and, if_false, not_true, ite_false]
    rcases hj : peParseExecutionResponse (pyJoin "" (llm execMsgs)) with
      _ | bb | raw | s | items | kvs
    case null =>
      have ht := htame execMsgs
      rw [hj] at ht
      simp [tameExecResp] at ht
    case bool =>
      have ht := htame execMsgs
      rw [hj] at ht
      simp [tameExecResp] at ht
    case num =>
      have ht := htame execMsgs
      rw [hj] at ht
      simp [tameExecResp] at ht
    case str =>
      have ht := htame execMsgs
      rw [hj] at ht
      simp [tameExecResp] at ht
    case arr =>
      have ht := htame execMsgs
      rw [hj] at ht
      simp [tameExecResp] at ht
    case obj =>
      simp only []
      have ht := htame execMsgs
      rw [hj] at ht
      simp only [tameExecResp] at ht
      rcases hact : jsonEqStr ((jsonGet kvs "action").getD (.str "complete"))
          "tool" with _ | _
      case false =>
        rw [hact] at ht
        simp only [Bool.false_eq_true, if_false, ite_false] at ht ⊢
        rcases hac2 : jsonEqStr
            ((jsonGet kvs "action").getD (.str "complete")) "complete" with
          _ | _
        case false =>
          rw [hac2] at ht
          simp only [Bool.false_eq_true, if_false, ite_false] at ht ⊢
          rcases hac3 : jsonEqStr
              ((jsonGet kvs "action").getD (.str "complete")) "fail" with
            _ | _
          case false =>
            rw [hac3] at ht
            simp only [Bool.false_eq_true, if_false, ite_false] at ht ⊢
            exact ⟨rfl, rfl, rfl, fun _ => Or.inl rfl⟩
          case true =>
            rw [hac3] at ht
            simp only [if_true, ite_true] at ht ⊢
            rcases hres : jsonGet kvs "reason" with _ | jv
            · simp only [hres, Option.getD_none] at ht ⊢
              exact ⟨rfl, rfl, rfl, fun _ => Or.inr rfl⟩
            · rcases jv with _ | bb₂ | raw₂ | s₂ | items₂ | kvs₂ <;>
                simp only [hres, Option.getD_some] at ht ⊢
              all_goals first
                | exact ⟨rfl, rfl, rfl, fun _ => Or.inr rfl⟩
                | exact absurd ht (by simp)
        case true =>
          rw [hac2] at ht
          simp only [if_true, ite_true] at ht ⊢
          rcases hres : jsonGet kvs "result" with _ | jv
          · simp only [hres, Option.getD_none] at ht ⊢
            exact ⟨rfl, rfl, rfl, fun _ => Or.inl rfl⟩
          · rcases jv with _ | bb₂ | raw₂ | s₂ | items₂ | kvs₂ <;>
              simp only [hres, Option.getD_some] at ht ⊢
            all_goals first
              | exact ⟨rfl, rfl, rfl, fun _ => Or.inl rfl⟩
              | exact absurd ht (by simp)
      case true =>
        rw [hact] at ht
        simp only [if_true, ite_true] at ht ⊢
        rcases hres : jsonGet kvs "tool_name" with _ | jv
        · simp only [hres, Option.getD_none] at ht ⊢
          exact ih _ _ _
        · rcases jv with _ | bb₂ | raw₂ | s₂ | items₂ | kvs₂ <;>
            simp only [hres, Option.getD_some] at ht ⊢
          all_goals first
            | exact ih _ _ _
            | exact absurd ht (by simp)

theorem peExecPhase_spec (llm : LLMOracle)
    (handlers : String → Option ToolHandler) (tools : List ToolDef)
    (cfg : PlanExecuteConfig) (uuid : IdSupply) (hist : List LLMMessage)
    (S : List String)
    (htame : ∀ msgs,
      tameExecResp (peParseExecutionResponse (pyJoin "" (llm msgs))) = true) :
    ∀ (n : Nat) (p : Plan) (ctr : Nat), BlockedInv p S →
      BlockedInv (peExecPhase llm handlers tools cfg uuid false hist n p
        ctr).plan S
      ∧ (countPending p < n →
        (peExecPhase llm handlers tools cfg uuid false hist n p ctr).early
            = false
        ∧ (peExecPhase llm handlers tools cfg uuid false hist n p
            ctr).exhausted = false
        ∧ (peExecPhase llm handlers tools cfg uuid false hist n p
            ctr).outcome = Outcome.finished) := by
  intro n
  induction n with
  | zero =>
    intro p ctr hinv
    exact ⟨hinv, fun hcp => absurd hcp (by omega)⟩
  | succ f ih =>
    intro p ctr hinv
    rw [peExecPhase]
    by_cases hcomp : planIsComplete p = true
    · rw [if_pos hcomp]
      exact ⟨hinv, fun _ => ⟨rfl, rfl, rfl⟩⟩
    · rw [if_neg hcomp]
      simp only [Bool.false_eq_true, if_false, ite_false]
      rcases hsel : peSelect p with _ | ⟨idx, task⟩
      · exact ⟨hinv, fun _ => ⟨rfl, rfl, rfl⟩⟩
      · simp only []
        obtain ⟨hget, hpend, hdeps, _⟩ := peSelect_spec p idx task hsel
        have hmem : task ∈ p.tasks := List.get?_mem hget
        have hnotin : task.id ∉ S := by
          intro hin
          obtain ⟨hp1, d, hd, hnever⟩ := hinv task hmem hin
          obtain ⟨u, hu, huid, hustat⟩ :=
            (depsMet_iff p.tasks task).mp hdeps d hd
          exact (hnever u hu huid).1 hustat
        set task₁ := {task with status := TaskStatus.inProgress} with htask₁
        set plan₁ := {p with tasks := p.tasks.set idx task₁} with hplan₁
        set inner := peInnerExec llm handlers uuid false
          ("executing:" ++ task.id) (cfg.maxExecutionRetries + 1) task₁
          ((⟨MessageRole.system, peBuildExecutionPrompt tools plan₁ task₁,
            none, none⟩ : LLMMessage) :: pyLastN 5 hist) ctr with hinner
        have hstep := peInnerExec_spec llm handlers uuid
          ("executing:" ++ task.id) htame (cfg.maxExecutionRetries + 1) task₁
          ((⟨MessageRole.system, peBuildExecutionPrompt tools plan₁ task₁,
            none, none⟩ : LLMMessage) :: pyLastN 5 hist) ctr
        rw [← hinner] at hstep
        obtain ⟨hie, hio, hiid, hic⟩ := hstep
        rw [hie]
        simp only [Bool.false_eq_true, if_false, ite_false]
        rw [hio]
        simp only [eq_self_iff_true, not_true, ite_false]
        set taskF := (if inner.completed = true then inner.task
          else { inner.task with
                 status := TaskStatus.failed,
                 error := some "Maximum retries exceeded" }) with htaskF
        have hFid : taskF.id = task.id := by
          rw [htaskF]
          by_cases hc : inner.completed = true
          · rw [if_pos hc]; exact hiid
          · rw [if_neg hc]; exact hiid
        have hqF : (taskF.status == TaskStatus.pending) = false := by
          rw [htaskF]
          by_cases hc : inner.completed = true
          · rw [if_pos hc]
            rcases hic hc with h | h <;> rw [h] <;> rfl
          · rw [if_neg hc]; rfl
        set plan₂ := {plan₁ with tasks := plan₁.tasks.set idx taskF}
          with hplan₂
        have hq2 : plan₂.tasks = p.tasks.set idx taskF := by
          rw [hplan₂, hplan₁]
          simp [List.set_set]
        have hinv₂ : BlockedInv plan₂ S :=
          BlockedInv_set p plan₂ S idx task taskF hinv hq2 hget hpend hFid
            hnotin
        have hcnt : countPending p < f + 1 → countPending plan₂ < f := by
          intro hcp
          have hcpeq := countP_set (fun t => t.status == TaskStatus.pending)
            p.tasks idx task taskF hget
          simp only [hpend, hqF, beq_self_eq_true, if_true,
            Bool.false_eq_true, if_false, ite_true, ite_false] at hcpeq
          have e₁ : countPending plan₂ =
              (p.tasks.set idx taskF).countP
                (fun t => t.status == TaskStatus.pending) := by
            simp only [countPending, hq2, List.set_set]
            exact (List.countP_eq_length_filter _ _).symm
          have e₂ : countPending p =
              p.tasks.countP (fun t => t.status == TaskStatus.pending) := by
            simp only [countPending]
            exact (List.countP_eq_length_filter _ _).symm
          omega
        refine ⟨?_, ?_⟩
        · exact (ih plan₂ inner.ctr hinv₂).1
        · intro hcp
          have h3 := (ih plan₂ inner.ctr hinv₂).2 (hcnt hcp)
          exact ⟨h3.1, h3.2.1, h3.2.2⟩

theorem peExecPhase_break (llm : LLMOracle)
    (handlers : String → Option ToolHandler) (tools : List ToolDef)
    (cfg : PlanExecuteConfig) (uuid : IdSupply) (hist : List LLMMessage)
    (f ctr : Nat) (p : Plan) (hsel : peSelect p = none) :
    peExecPhase llm handlers tools cfg uuid false hist (f + 1) p ctr
      = ⟨[], ctr, p, false, false, .finished⟩ := by
  rw [peExecPhase]
  by_cases hcomp : planIsComplete p = true
  · rw [if_pos hcomp]
  · rw [if_neg hcomp]
    simp only [Bool.false_eq_true, if_false, ite_false]
    rw [hsel]

set_option maxHeartbeats 1000000 in
/-- C2: in the Plan-and-Execute execution phase, a task is selected only
when it is the first pending task in plan order all of whose dependency
ids name completed tasks; relative to a blocked-id set (tasks whose some
dependency can never be met — failed, skipped, nonexistent or cyclic), a
blocked task is never selected and every blocked task is still pending
in the plan produced by the execution phase at any fuel; when no task is
selectable the phase terminates at once with no events, no error and no
early flag; with fuel `|tasks| + 1` the phase never exhausts its fuel
and finishes normally, and a run whose planning phase parsed a plan
reaches the synthesis step and finishes. -/
theorem c2_plan_dependency_ordering (llm : LLMOracle)
    (handlers : String → Option ToolHandler) (tools : List ToolDef)
    (cfg : PlanExecuteConfig) (uuid freshIds : IdSupply) (message : String)
    (hist₀ : List LLMMessage) (p : Plan) (S : List String)
    (htame : ∀ msgs,
      tameExecResp (peParseExecutionResponse (pyJoin "" (llm msgs))) = true)
    (hinv : BlockedInv p S) :
    (∀ i t, peSelect p = some (i, t) →
      p.tasks.get? i = some t ∧ t.status = TaskStatus.pending
      ∧ (∀ d ∈ t.dependencies, ∃ u ∈ p.tasks,
          u.id = d ∧ u.status = TaskStatus.completed)
      ∧ ∀ j u, j < i → p.tasks.get? j = some u →
          ¬ (u.status = TaskStatus.pending ∧ depsMet p.tasks u = true))
    ∧ (∀ i t, peSelect p = some (i, t) → t.id ∉ S)
    ∧ (∀ n ctr, ∀ t ∈ (peExecPhase llm handlers tools cfg uuid false
          (hist₀ ++ [⟨MessageRole.user, message, none, none⟩]) n p
          ctr).plan.tasks,
        t.id ∈ S → t.status = TaskStatus.pending)
    ∧ (∀ f ctr, peSelect p = none →
        peExecPhase llm handlers tools cfg uuid false
          (hist₀ ++ [⟨MessageRole.user, message, none, none⟩]) (f + 1) p ctr
          = ⟨[], ctr, p, false, false, .finished⟩)
    ∧ (∀ ctr,
        (peExecPhase llm handlers tools cfg uuid false
          (hist₀ ++ [⟨MessageRole.user, message, none, none⟩])
          (p.tasks.length + 1) p ctr).early = false
        ∧ (peExecPhase llm handlers tools cfg uuid false
            (hist₀ ++ [⟨MessageRole.user, message, none, none⟩])
            (p.tasks.length + 1) p ctr).exhausted = false
        ∧ (peExecPhase llm handlers tools cfg uuid false
            (hist₀ ++ [⟨MessageRole.user, message, none, none⟩])
            (p.tasks.length + 1) p ctr).outcome = Outcome.finished)
    ∧ (∀ q, peParsePlan freshIds cfg.maxTasksPerPlan
          (pyJoin "" (llm ((⟨MessageRole.system,
              peBuildPlanningPrompt tools cfg.maxTasksPerPlan, none,
              none⟩ : LLMMessage)
            :: pyLastN 10 hist₀
              ++ [⟨MessageRole.user, message, none, none⟩]))) = .ok q →
        AgentEvent.stepStarted "synthesis" ∈
          (peProcess llm handlers tools cfg uuid freshIds false message
            hist₀).events
        ∧ (peProcess llm handlers tools cfg uuid freshIds false message
            hist₀).outcome = Outcome.finished) := by
  refine ⟨?_, ?_, ?_, ?_, ?_, ?_⟩
  · intro i t hsel
    obtain ⟨h1, h2, h3, h4⟩ := peSelect_spec p i t hsel
    exact ⟨h1, h2, (depsMet_iff p.tasks t).mp h3, h4⟩
  · intro i t hsel hin
    obtain ⟨h1, h2, h3, _⟩ := peSelect_spec p i t hsel
    obtain ⟨_, d, hd, hnever⟩ := hinv t (List.get?_mem h1) hin
    obtain ⟨u, hu, huid, hustat⟩ := (depsMet_iff p.tasks t).mp h3 d hd
    exact (hnever u hu huid).1 hustat
  · intro n ctr t ht hid
    have h := (peExecPhase_spec llm handlers tools cfg uuid
      (hist₀ ++ [⟨MessageRole.user, message, none, none⟩]) S htame n p ctr
      hinv).1
    exact (h t ht hid).1
  · intro f ctr hsel
    have h := peExecPhase_break llm handlers tools cfg uuid
      (hist₀ ++ [⟨MessageRole.user, message, none, none⟩]) f ctr p hsel
    exact h
  · intro ctr
    have h0 : countPending p ≤ p.tasks.length := List.length_filter_le _ _
    have h := (peExecPhase_spec llm handlers tools cfg uuid
      (hist₀ ++ [⟨MessageRole.user, message, none, none⟩]) S htame
      (p.tasks.length + 1) p ctr hinv).2 (by omega)
    exact h
  · intro q hq
    have hinv₀ : BlockedInv q [] := fun t _ h => absurd h (List.not_mem_nil _)
    have h0 : countPending q ≤ q.tasks.length := List.length_filter_le _ _
    obtain ⟨hex1, hex2, hex3⟩ := (peExecPhase_spec llm handlers tools cfg
      uuid (hist₀ ++ [⟨MessageRole.user, message, none, none⟩]) [] htame
      (q.tasks.length + 1) q 0 hinv₀).2 (by omega)
    refine ⟨?_, ?_⟩ <;>
      simp only [peProcess, hq, Bool.false_eq_true, false_and, if_false,
        not_true, ite_false] <;>
      rw [hex1] <;>
      simp only [Bool.false_eq_true, if_false, ite_false] <;>
      rw [hex3] <;>
      simp only [eq_self_iff_true, not_true, ite_false] <;>
      rw [hex2] <;>
      simp only [Bool.false_eq_true, if_false, ite_false]
    all_goals simp

/-- C2 witness: in the two-task plan `[A, B]` (B depending on a
nonexistent task id), A is the selected task and the blocked B is still
pending after the whole execution phase; on the plan containing only the
blocked B nothing is selectable and the phase breaks immediately; with a
parsed plan the run reaches synthesis. -/
theorem c2_plan_dependency_ordering_witness :
    BlockedInv planAB ["B"]
    ∧ planAB.tasks.get? 0 = some taskA
    ∧ taskB.status = TaskStatus.pending
    ∧ peExecPhase emptyPlanLlm noHandlers [] ⟨10, 3, 2, true, 10⟩ wUuid false
        [⟨MessageRole.user, "w", none, none⟩] 1 planB 0
        = ⟨[], 0, planB, false, false, .finished⟩
    ∧ AgentEvent.stepStarted "synthesis" ∈
        (peProcess emptyPlanLlm noHandlers [] ⟨10, 3, 2, true, 10⟩ wUuid
          wUuid false "w" []).events :=
  ⟨by unfold BlockedInv depNeverMet; decide,
   ((c2_plan_dependency_ordering emptyPlanLlm noHandlers []
       ⟨10, 3, 2, true, 10⟩ wUuid wUuid "w" [] planAB ["B"] (fun _ => rfl)
       (by unfold BlockedInv depNeverMet; decide)).1 0 taskA rfl).1,
   ((c2_plan_dependency_ordering emptyPlanLlm noHandlers []
       ⟨10, 3, 2, true, 10⟩ wUuid wUuid "w" [] planAB ["B"] (fun _ => rfl)
       (by unfold BlockedInv depNeverMet; decide)).2.2.1 3 0 taskB (by decide) (by decide)),
   ((c2_plan_dependency_ordering emptyPlanLlm noHandlers []
       ⟨10, 3, 2, true, 10⟩ wUuid wUuid "w" [] planB ["B"] (fun _ => rfl)
       (by unfold BlockedInv depNeverMet; decide)).2.2.2.1 0 0 rfl),
   ((c2_plan_dependency_ordering emptyPlanLlm noHandlers []
       ⟨10, 3, 2, true, 10⟩ wUuid wUuid "w" [] planAB ["B"] (fun _ => rfl)
       (by unfold BlockedInv depNeverMet; decide)).2.2.2.2.2 ⟨"g", [], 0, 0⟩ rfl).1⟩
